import Mathlib

/-!
Verification of the Agent Memory & Batch-Dialogue Orchestration Engine.

Shallow embedding of the Python source under `backend/app/agents/`
(`service.py`, `knowledge_index.py`, `intent_detector.py`) together with the
parts of the Python runtime they rely on (string helpers, a strict JSON
decoder mirroring `json.loads`, truthiness, iteration and `len`).

Python values decoded from JSON are modelled by the inductive type `Json`;
Python exceptions are modelled by `Except String`; the one random call
(`random.randint(1, 5)`) is modelled by an oracle `rng : Nat → Int` indexed
by the reply position at which the call happens.
-/

/-! ### Python string primitives -/

/-- Characters stripped by Python `str.strip()` (ASCII whitespace). -/
def pyIsSpace (c : Char) : Bool :=
  c == ' ' || c == '\t' || c == '\n' || c == '\r' || c == '\x0b' || c == '\x0c'

/-- Python `str.strip()` on a character list. -/
def pyStripList (cs : List Char) : List Char :=
  ((cs.dropWhile pyIsSpace).reverse.dropWhile pyIsSpace).reverse

/-- Python `str.strip()`. -/
def pyStrip (s : String) : String :=
  String.mk (pyStripList s.data)

/-- Python `str.lower()` (ASCII case folding). -/
def pyLower (s : String) : String :=
  String.mk (s.data.map Char.toLower)

/-- Python `str.find` helper: index of the first occurrence of `needle`. -/
def strFindOpt (needle : List Char) : List Char → Option Nat
  | [] => if needle.isEmpty then some 0 else none
  | c :: rest =>
    if needle.isPrefixOf (c :: rest) then some 0
    else (strFindOpt needle rest).map (· + 1)

/-- Python `needle in hay` on strings (substring containment). -/
def pySubstr (needle hay : String) : Bool :=
  (strFindOpt needle.data hay.data).isSome

/-- Python slice `cs[a:e]` where `e` may be negative (counted from the end). -/
def pySliceTo (cs : List Char) (a : Nat) (e : Int) : List Char :=
  let e' : Int := if e < 0 then (cs.length : Int) + e else e
  if e' ≤ (a : Int) then [] else (cs.drop a).take (e' - a).toNat

/-! ### JSON values (the result of Python `json.loads`) -/

/-- A decoded Python JSON value.  Numbers are modelled exactly as rationals
(`3` and `3.0` are the same Python number under `==`). -/
inductive Json where
  | null : Json
  | bool (b : Bool) : Json
  | num (q : Rat) : Json
  | str (s : String) : Json
  | arr (elems : List Json) : Json
  | obj (fields : List (String × Json)) : Json

/-- Python truthiness of a decoded JSON value. -/
def pyTruthy : Json → Bool
  | .null => false
  | .bool b => b
  | .num q => !(q == 0)
  | .str s => !(s == "")
  | .arr xs => !xs.isEmpty
  | .obj kvs => !kvs.isEmpty

/-- Python `len()` on a decoded JSON value (`TypeError` on numbers etc.). -/
def pyLen : Json → Except String Nat
  | .str s => .ok s.length
  | .arr xs => .ok xs.length
  | .obj kvs => .ok kvs.length
  | _ => .error "TypeError: object has no len"

/-- Python iteration over a decoded JSON value: lists yield elements, strings
yield one-character strings, dicts yield their keys; anything else raises. -/
def pyIterJson : Json → Except String (List Json)
  | .arr xs => .ok xs
  | .str s => .ok (s.data.map fun c => Json.str (String.mk [c]))
  | .obj kvs => .ok (kvs.map fun kv => Json.str kv.1)
  | _ => .error "TypeError: not iterable"

/-- Python `d[k] = v` / dict building: updating an existing key keeps its
position, a new key is appended (insertion order). -/
def objInsert (kvs : List (String × Json)) (k : String) (v : Json) :
    List (String × Json) :=
  if kvs.any (fun kv => kv.1 == k) then
    kvs.map (fun kv => if kv.1 == k then (k, v) else kv)
  else kvs ++ [(k, v)]

/-- Dict key lookup (`k in d` / `d[k]`). -/
def objLookup (kvs : List (String × Json)) (k : String) : Option Json :=
  (kvs.find? (fun kv => kv.1 == k)).map (·.2)

/-- Python `d.get(k, default)`. -/
def dictGetD (kvs : List (String × Json)) (k : String) (d : Json) : Json :=
  (objLookup kvs k).getD d

/-! ### A strict JSON decoder mirroring Python `json.loads` -/

/-- JSON whitespace. -/
def jsonWs (c : Char) : Bool :=
  c == ' ' || c == '\t' || c == '\n' || c == '\r'

/-- Skip JSON whitespace. -/
def skipWs (cs : List Char) : List Char :=
  cs.dropWhile jsonWs

/-- Hex digit value. -/
def hexVal (c : Char) : Option Nat :=
  if '0' ≤ c ∧ c ≤ '9' then some (c.toNat - 48)
  else if 'a' ≤ c ∧ c ≤ 'f' then some (c.toNat - 87)
  else if 'A' ≤ c ∧ c ≤ 'F' then some (c.toNat - 55)
  else none

/-- Body of a JSON string literal (after the opening quote), with escapes. -/
def parseJStringAux : Nat → List Char → List Char → Option (String × List Char)
  | 0, _, _ => none
  | _ + 1, _, [] => none
  | _ + 1, acc, '"' :: rest => some (String.mk acc.reverse, rest)
  | fuel + 1, acc, '\\' :: e :: rest =>
    match e with
    | '"' => parseJStringAux fuel ('"' :: acc) rest
    | '\\' => parseJStringAux fuel ('\\' :: acc) rest
    | '/' => parseJStringAux fuel ('/' :: acc) rest
    | 'b' => parseJStringAux fuel ('\x08' :: acc) rest
    | 'f' => parseJStringAux fuel ('\x0c' :: acc) rest
    | 'n' => parseJStringAux fuel ('\n' :: acc) rest
    | 'r' => parseJStringAux fuel ('\r' :: acc) rest
    | 't' => parseJStringAux fuel ('\t' :: acc) rest
    | 'u' =>
      match rest with
      | h1 :: h2 :: h3 :: h4 :: rest' =>
        match hexVal h1, hexVal h2, hexVal h3, hexVal h4 with
        | some a, some b, some c, some d =>
          parseJStringAux fuel (Char.ofNat (((a * 16 + b) * 16 + c) * 16 + d) :: acc) rest'
        | _, _, _, _ => none
      | _ => none
    | _ => none
  | fuel + 1, acc, c :: rest => parseJStringAux fuel (c :: acc) rest

/-- Take leading decimal digits. -/
def takeDigits (cs : List Char) : List Char × List Char :=
  (cs.takeWhile Char.isDigit, cs.dropWhile Char.isDigit)

/-- Numeric value of a digit string. -/
def digitsToNat (ds : List Char) : Nat :=
  ds.foldl (fun a c => a * 10 + (c.toNat - 48)) 0

/-- JSON number literal (sign, integer part without leading zeros, optional
fraction and exponent), as an exact rational. -/
def parseJNumber (cs : List Char) : Option (Rat × List Char) :=
  let signed : Bool × List Char :=
    match cs with
    | '-' :: r => (true, r)
    | _ => (false, cs)
  let neg := signed.1
  let cs1 := signed.2
  let ip := takeDigits cs1
  if ip.1.isEmpty then none
  else if ip.1.length > 1 && ip.1.head? == some '0' then none
  else
    let fracStep : Option (Nat × Nat × List Char) :=
      match ip.2 with
      | '.' :: r =>
        let fp := takeDigits r
        if fp.1.isEmpty then none else some (digitsToNat fp.1, fp.1.length, fp.2)
      | _ => some (0, 0, ip.2)
    match fracStep with
    | none => none
    | some (fnum, flen, cs3) =>
      let expStep : Option (Int × List Char) :=
        match cs3 with
        | 'e' :: r | 'E' :: r =>
          let es : Int × List Char :=
            match r with
            | '+' :: t => (1, t)
            | '-' :: t => (-1, t)
            | _ => (1, r)
          let ep := takeDigits es.2
          if ep.1.isEmpty then none else some (es.1 * digitsToNat ep.1, ep.2)
        | _ => some (0, cs3)
      match expStep with
      | none => none
      | some (ex, cs4) =>
        let mantissa : Nat := digitsToNat ip.1 * Nat.pow 10 flen + fnum
        let sgn : Int := if neg then -1 else 1
        let scaled : Rat :=
          if 0 ≤ ex then
            mkRat (sgn * (mantissa * Nat.pow 10 ex.toNat : Nat)) (Nat.pow 10 flen)
          else
            mkRat (sgn * mantissa) (Nat.pow 10 flen * Nat.pow 10 (-ex).toNat)
        some (scaled, cs4)

/-- A pending parse task: a value, array elements, or object members. -/
inductive PTask where
  | pval (cs : List Char)
  | pelems (cs : List Char)
  | pfields (acc : List (String × Json)) (cs : List Char)

/-- A parse result: the corresponding parsed payload plus remaining input. -/
inductive POut where
  | pval (v : Json) (rest : List Char)
  | pelems (vs : List Json) (rest : List Char)
  | pfields (kvs : List (String × Json)) (rest : List Char)

/-- JSON recursive-descent parser, as one structurally recursive function on
fuel so that it is kernel-reducible.  `pval` parses one value; `pelems`
parses comma-separated array elements up to `]`; `pfields` parses object
members up to `}`, with duplicate keys overwriting in place as in a Python
dict. -/
def parseJ : Nat → PTask → Option POut
  | 0, _ => none
  | fuel + 1, .pval cs =>
    match cs with
    | [] => none
    | '"' :: rest =>
      (parseJStringAux (rest.length + 1) [] rest).map (fun p => POut.pval (Json.str p.1) p.2)
    | 't' :: 'r' :: 'u' :: 'e' :: rest => some (.pval (Json.bool true) rest)
    | 'f' :: 'a' :: 'l' :: 's' :: 'e' :: rest => some (.pval (Json.bool false) rest)
    | 'n' :: 'u' :: 'l' :: 'l' :: rest => some (.pval Json.null rest)
    | '\x5b' :: rest =>
      (match skipWs rest with
      | '\x5d' :: r2 => some (.pval (Json.arr []) r2)
      | r1 =>
        match parseJ fuel (.pelems r1) with
        | some (.pelems xs r2) => some (.pval (Json.arr xs) r2)
        | _ => none)
    | '\x7b' :: rest =>
      (match skipWs rest with
      | '\x7d' :: r2 => some (.pval (Json.obj []) r2)
      | r1 =>
        match parseJ fuel (.pfields [] r1) with
        | some (.pfields kvs r2) => some (.pval (Json.obj kvs) r2)
        | _ => none)
    | _ => (parseJNumber cs).map (fun p => POut.pval (Json.num p.1) p.2)
  | fuel + 1, .pelems cs =>
    (match parseJ fuel (.pval (skipWs cs)) with
    | some (.pval v r) =>
      (match skipWs r with
      | ',' :: r2 =>
        (match parseJ fuel (.pelems r2) with
        | some (.pelems vs r3) => some (.pelems (v :: vs) r3)
        | _ => none)
      | '\x5d' :: r2 => some (.pelems [v] r2)
      | _ => none)
    | _ => none)
  | fuel + 1, .pfields acc cs =>
    (match skipWs cs with
    | '"' :: r =>
      (match parseJStringAux (r.length + 1) [] r with
      | none => none
      | some (k, r2) =>
        match skipWs r2 with
        | ':' :: r3 =>
          (match parseJ fuel (.pval (skipWs r3)) with
          | some (.pval v r4) =>
            (match skipWs r4 with
            | ',' :: r5 => parseJ fuel (.pfields (objInsert acc k v) r5)
            | '\x7d' :: r5 => some (.pfields (objInsert acc k v) r5)
            | _ => none)
          | _ => none)
        | _ => none)
    | _ => none)

/-- JSON value parser entry point. -/
def parseJValue (fuel : Nat) (cs : List Char) : Option (Json × List Char) :=
  match parseJ fuel (.pval cs) with
  | some (.pval v rest) => some (v, rest)
  | _ => none

/-- Python `json.loads`: decode a whole string as one JSON value, rejecting
trailing content.  `none` models `json.JSONDecodeError`. -/
def json_loads (s : String) : Option Json :=
  match parseJValue (s.data.length + 1) (skipWs s.data) with
  | some (v, rest) => if (skipWs rest).isEmpty then some v else none
  | none => none

/-! ### `service.py`: markdown-fence cleaning and defensive reply parsing -/

/-- `re.sub(r'```json\s*', '', text)` worker: drop every occurrence of a
```json fence together with the whitespace that follows it. -/
def subFenceJsonAux : Nat → List Char → List Char
  | 0, cs => cs
  | _ + 1, [] => []
  | fuel + 1, '\x60' :: '\x60' :: '\x60' :: 'j' :: 's' :: 'o' :: 'n' :: rest =>
    subFenceJsonAux fuel (rest.dropWhile pyIsSpace)
  | fuel + 1, c :: rest => c :: subFenceJsonAux fuel rest

/-- `re.sub(r'```json\s*', '', text)`. -/
def subFenceJson (cs : List Char) : List Char :=
  subFenceJsonAux cs.length cs

/-- `re.sub(r'```\s*', '', text)` worker: drop every remaining ``` fence
together with the whitespace that follows it. -/
def subFenceAux : Nat → List Char → List Char
  | 0, cs => cs
  | _ + 1, [] => []
  | fuel + 1, '\x60' :: '\x60' :: '\x60' :: rest =>
    subFenceAux fuel (rest.dropWhile pyIsSpace)
  | fuel + 1, c :: rest => c :: subFenceAux fuel rest

/-- `re.sub(r'```\s*', '', text)`. -/
def subFence (cs : List Char) : List Char :=
  subFenceAux cs.length cs

/-- `clean_markdown_code_block` from `service.py`: strip ```json fences, then
``` fences, then surrounding whitespace. -/
def clean_markdown_code_block (text : String) : String :=
  pyStrip (String.mk (subFence (subFenceJson text.data)))

/-- `re.search(r'\{.*\}', s, re.DOTALL)`: with a greedy dot-all `.*` this
matches from the first opening brace that precedes the last closing brace,
up to that last closing brace. -/
def re_search_braces (cs : List Char) : Option (List Char) :=
  match cs.findIdx? (fun c => c == '\x7b'), (cs.reverse.findIdx? (fun c => c == '\x7d')) with
  | some i, some k =>
    let j := cs.length - 1 - k
    if i < j then some ((cs.drop i).take (j - i + 1)) else none
  | _, _ => none

/-- `parse_nested_replies` from `service.py`, as one structurally recursive
function: `.inl` processes one value (inside a dict with a `"replies"`
entry, re-decode every element that is itself a JSON-encoded string,
wrapping undecodable strings as content dicts, and recurse into dict
elements); `.inr` processes the element list.  Non-dict `.inl` arguments
reproduce the corresponding Python `TypeError`s of `"replies" in data` /
`data["replies"]`.  The fuel bounds the recursion depth and is in practice
never exhausted because every nesting level consumes characters of the
original text. -/
def parseNestedCore : Nat → Json ⊕ List Json → Except String (Json ⊕ List Json)
  | 0, _ => .error "RecursionError"
  | fuel + 1, .inl data =>
    (match data with
    | .obj kvs =>
      (match objLookup kvs "replies" with
      | none => .ok (.inl (.obj kvs))
      | some rv => do
        let elems ← pyIterJson rv
        match ← parseNestedCore fuel (.inr elems) with
        | .inr parsed => pure (.inl (.obj (objInsert kvs "replies" (.arr parsed))))
        | r => pure r)
    | .arr xs =>
      if xs.any (fun x => match x with | .str s => s == "replies" | _ => false) then
        .error "TypeError: list indices must be integers"
      else .ok (.inl (.arr xs))
    | .str s =>
      if pySubstr "replies" s then .error "TypeError: string indices must be integers"
      else .ok (.inl (.str s))
    | _ => .error "TypeError: argument of type is not iterable")
  | _ + 1, .inr [] => .ok (.inr [])
  | fuel + 1, .inr (reply :: rest) => do
    let r1 : Json :=
      match reply with
      | .str s =>
        (match json_loads s with
        | some v => v
        | none => .obj [("content", .str s), ("send_delay_seconds", .num 0)])
      | _ => reply
    let r2 ←
      match r1 with
      | .obj _ => do
        match ← parseNestedCore fuel (.inl r1) with
        | .inl v => pure v
        | _ => .error "RecursionError"
      | _ => pure r1
    match ← parseNestedCore fuel (.inr rest) with
    | .inr vs => pure (.inr (r2 :: vs))
    | r => pure r

/-- `parse_nested_replies` entry point. -/
def parse_nested_replies (fuel : Nat) (data : Json) : Except String Json := do
  match ← parseNestedCore fuel (.inl data) with
  | .inl v => pure v
  | _ => .error "RecursionError"

/-- `parse_nested_json` from `service.py`: clean markdown fences, try a
direct decode, then a decode of the first greedy `{...}` span, and fall back
to `{"replies": []}` when neither decodes. -/
def parse_nested_json (json_string : String) : Except String Json :=
  let cleaned := clean_markdown_code_block json_string
  match json_loads cleaned with
  | some data => parse_nested_replies (2 * cleaned.length + 8) data
  | none =>
    match re_search_braces cleaned.data with
    | some span =>
      match json_loads (String.mk span) with
      | some data => parse_nested_replies (2 * cleaned.length + 8) data
      | none => .ok (.obj [("replies", .arr [])])
    | none => .ok (.obj [("replies", .arr [])])

/-! ### `service.py`: delay computation and reply normalization -/

/-- `normalize_delay` from `service.py`, on an `int` argument: clamp to
`[0, 10]`. -/
def normalize_delay_int (delay : Int) : Int :=
  if delay < 0 then 0 else if delay > 10 then 10 else delay

/-- `normalize_delay` as reached with a dynamically typed argument coming
from decoded JSON: numbers are clamped, bools pass through unchanged
(`True < 0` and `True > 10` are both false), anything else raises
`TypeError` on `<`. -/
def normalize_delay : Json → Except String Json
  | .num q => .ok (.num (if q < 0 then 0 else if q > 10 then 10 else q))
  | .bool b => .ok (.bool b)
  | _ => .error "TypeError: not supported between instances"

/-- `calculate_reply_delay` from `service.py`: the first reply gets delay 0;
later replies get `random.randint(1, 5)` (the oracle `rng` applied to the
reply index), plus 2 if the reply exceeds 200 characters, clamped to
`[0, 10]`. -/
def calculate_reply_delay (rng : Nat → Int) (reply_index : Nat) (reply_length : Nat) : Int :=
  if reply_index = 0 then 0
  else
    let delay := rng reply_index
    let delay := if reply_length > 200 then delay + 2 else delay
    normalize_delay_int delay

/-- One normalized reply unit `{content, send_delay_seconds}`. -/
structure Reply where
  content : Json
  sendDelaySeconds : Json

/-- Python `delay == 0` for a decoded JSON value (`False == 0` is true). -/
def pyEq0 : Json → Bool
  | .num q => q == 0
  | .bool b => !b
  | _ => false

/-- The body of the `normalize_replies` loop for one element at position
`idx`: dicts are normalized, strings are wrapped, everything else is
silently skipped. -/
def normalize_one_reply (rng : Nat → Int) (idx : Nat) (reply : Json) :
    Except String (Option Reply) :=
  match reply with
  | .obj kvs =>
    let content := dictGetD kvs "content" (.str "")
    let delay := dictGetD kvs "send_delay_seconds" (.num 0)
    if pyEq0 delay && decide (0 < idx) then do
      let n ← pyLen content
      pure (some ⟨content, .num (calculate_reply_delay rng idx n)⟩)
    else do
      let d ← normalize_delay delay
      pure (some ⟨content, d⟩)
  | .str s => pure (some ⟨.str s, .num (calculate_reply_delay rng idx s.length)⟩)
  | _ => pure none

/-- `normalize_replies` from `service.py`. -/
def normalize_replies (rng : Nat → Int) (replies : List Json) :
    Except String (List Reply) := do
  let opts ← replies.enum.mapM (fun p => normalize_one_reply rng p.1 p.2)
  pure (opts.filterMap id)

/-- `safe_parse_agent_reply` from `service.py`: parse defensively and fall
back to a single reply holding the whole raw response with delay 0 when
parsing raises or yields a falsy `replies` value.  Note that a truthy
`replies` list is returned after normalization even if normalization
discarded every element. -/
def safe_parse_agent_reply (rng : Nat → Int) (raw_response : String) : List Reply :=
  let attempt : Except String (Option (List Reply)) := do
    let data ← parse_nested_json raw_response
    let replies ←
      match data with
      | .obj kvs => Except.ok (dictGetD kvs "replies" (.arr []))
      | _ => Except.error "AttributeError: object has no attribute get"
    if pyTruthy replies then do
      let elems ← pyIterJson replies
      let normalized ← normalize_replies rng elems
      pure (some normalized)
    else
      pure none
  match attempt with
  | .ok (some replies) => replies
  | _ => [⟨.str raw_response, .num 0⟩]

/-! ### `service.py`: batch message validation -/

/-- `validate_batch_messages` from `service.py`. -/
def validate_batch_messages (messages : List String) : Bool × Option String :=
  if messages.isEmpty then (false, some "消息列表不能为空")
  else if messages.length > 20 then (false, some "单次最多发送20条消息")
  else
    let filtered := (messages.map pyStrip).filter (fun m => !(m == ""))
    if filtered.isEmpty then (false, some "所有消息都为空")
    else
      match filtered.enum.find? (fun p => decide (p.2.length > 5000)) with
      | some p => (false, some ("第" ++ toString (p.1 + 1) ++ "条消息长度超过5000字符"))
      | none => (true, none)

/-! ### Python `str()` of decoded JSON values -/

mutual

/-- Python `repr()` of a decoded JSON value (nested elements of containers
are shown with `repr`, strings quoted). -/
def pyRepr : Json → String
  | .null => "None"
  | .bool b => if b then "True" else "False"
  | .num q => if q.den = 1 then toString q.num else toString q
  | .str s => "\x27" ++ s ++ "\x27"
  | .arr xs => "[" ++ String.intercalate ", " (pyReprList xs) ++ "]"
  | .obj kvs => "\x7b" ++ String.intercalate ", " (pyReprFields kvs) ++ "\x7d"

/-- `repr` of list elements. -/
def pyReprList : List Json → List String
  | [] => []
  | x :: xs => pyRepr x :: pyReprList xs

/-- `repr` of dict entries. -/
def pyReprFields : List (String × Json) → List String
  | [] => []
  | (k, v) :: rest => ("\x27" ++ k ++ "\x27: " ++ pyRepr v) :: pyReprFields rest

end

/-- Python `str()` of a decoded JSON value (as used by f-strings).
Non-integral numbers are given a printable but unspecified form. -/
def pyStr : Json → String
  | .str s => s
  | j => pyRepr j

/-! ### `knowledge_index.py`: entries, scoring, search -/

/-- One `AgentKnowledgeIndex` row.  `summary_summary` is kept as a decoded
dynamic value because consolidation can store a non-string there when the
model's summary JSON carries one. -/
structure KEntry where
  promptHistoryId : Nat
  summaryDate : Int
  summarySummary : Json
  topics : Option Json
  keyPoints : Option Json
  keywords : Option Json
  messageCount : Nat
  userMessageCount : Nat

/-- `calculate_match_score` from `knowledge_index.py`: +1 for each query
keyword that is a case-insensitive substring of the summary text, +2 for
each (topic, keyword) pair where the keyword is a substring of the topic,
+3 for each (indexed keyword, query keyword) pair that is equal
case-insensitively. -/
def calculate_match_score (index : KEntry) (keywords : List String) :
    Except String Int := do
  let text_lower ←
    match index.summarySummary with
    | .str t => Except.ok (pyLower t)
    | _ => Except.error "AttributeError: object has no attribute lower"
  let score1 : Int := keywords.foldl
    (fun acc keyword => if pySubstr (pyLower keyword) text_lower then acc + 1 else acc) 0
  let score2 : Int ←
    match index.topics with
    | none => pure 0
    | some tj =>
      if pyTruthy tj then do
        let ts ← pyIterJson tj
        pure (ts.foldl (fun acc topic =>
          let topic_str := pyLower (pyStr topic)
          keywords.foldl
            (fun acc2 keyword =>
              if pySubstr (pyLower keyword) topic_str then acc2 + 2 else acc2)
            acc) (0 : Int))
      else pure 0
  let score3 : Int ←
    match index.keywords with
    | none => pure 0
    | some kj =>
      if pyTruthy kj then do
        let iks ← pyIterJson kj
        pure (iks.foldl (fun acc index_keyword =>
          let index_keyword_str := pyLower (pyStr index_keyword)
          keywords.foldl
            (fun acc2 keyword =>
              if pyLower keyword == index_keyword_str then acc2 + 3 else acc2)
            acc) (0 : Int))
      else pure 0
  pure (score1 + score2 + score3)

/-- `_filter_and_score_by_keywords` from `knowledge_index.py`: keep entries
with positive score, sorted by score descending; Python's `list.sort` is
stable, modelled by `List.mergeSort`. -/
def filter_and_score_by_keywords (results : List KEntry) (keywords : List String) :
    Except String (List KEntry) := do
  let scored ← results.mapM (fun index => do
    let score ← calculate_match_score index keywords
    pure (score, index))
  let positive := scored.filter (fun p => decide (0 < p.1))
  let sorted := positive.mergeSort (fun a b => decide (b.1 ≤ a.1))
  pure (sorted.map (·.2))

/-- `search_agent_knowledge` from `knowledge_index.py`.  The database query
for the agent's rows is modelled by `dbRows` (an `Except` so that a failing
backend is representable); the date filter, date-descending ordering,
keyword scoring and `limit` truncation mirror the source, and the
surrounding `try/except` (in `search_agent_knowledge` below) turns any
internal error into an empty list. -/
def search_agent_knowledge_body (dbRows : Except String (List KEntry))
    (dates : Option (List Int)) (keywords : Option (List String)) (limit : Nat) :
    Except String (List KEntry) := do
  let rows ← dbRows
  let rows :=
    match dates with
    | some ds =>
      if !ds.isEmpty then rows.filter (fun (e : KEntry) => ds.contains e.summaryDate)
      else rows
    | none => rows
  let rows := rows.mergeSort (fun a b => decide (b.summaryDate ≤ a.summaryDate))
  let rows ←
    match keywords with
    | some ks =>
      if !ks.isEmpty && !rows.isEmpty then filter_and_score_by_keywords rows ks
      else pure rows
    | none => pure rows
  pure (rows.take limit)

/-- `search_agent_knowledge` proper: the surrounding `try/except` returns an
empty list on any internal error. -/
def search_agent_knowledge (dbRows : Except String (List KEntry))
    (dates : Option (List Int)) (keywords : Option (List String)) (limit : Nat) :
    List KEntry :=
  match search_agent_knowledge_body dbRows dates keywords limit with
  | .ok r => r
  | .error _ => []

/-! ### `intent_detector.py` -/

/-- The result dict of `detect_agent_intent` / `parse_intent_json`.
`queryParams = Json.null` models Python `None`. -/
structure IntentResult where
  intent : Json
  confidence : Rat
  queryParams : Json
  reason : Json
  rawResponse : Option String

/-- Python `float()` on a string: optional sign, digits with optional
fraction and exponent, surrounded by optional whitespace. -/
def parsePyFloat (s : String) : Option Rat :=
  let cs := pyStripList s.data
  let signed : Bool × List Char :=
    match cs with
    | '+' :: r => (false, r)
    | '-' :: r => (true, r)
    | _ => (false, cs)
  let ip := takeDigits signed.2
  let fracStep : Option (Nat × Nat × List Char) :=
    match ip.2 with
    | '.' :: r =>
      let fp := takeDigits r
      if ip.1.isEmpty && fp.1.isEmpty then none
      else some (digitsToNat fp.1, fp.1.length, fp.2)
    | _ => if ip.1.isEmpty then none else some (0, 0, ip.2)
  match fracStep with
  | none => none
  | some (fnum, flen, cs3) =>
    let expStep : Option (Int × List Char) :=
      match cs3 with
      | 'e' :: r | 'E' :: r =>
        let es : Int × List Char :=
          match r with
          | '+' :: t => (1, t)
          | '-' :: t => (-1, t)
          | _ => (1, r)
        let ep := takeDigits es.2
        if ep.1.isEmpty then none else some (es.1 * digitsToNat ep.1, ep.2)
      | _ => some (0, cs3)
    match expStep with
    | none => none
    | some (ex, cs4) =>
      if cs4.isEmpty then
        let mantissa : Nat := digitsToNat ip.1 * Nat.pow 10 flen + fnum
        let sgn : Int := if signed.1 then -1 else 1
        some
          (if 0 ≤ ex then
            mkRat (sgn * (mantissa * Nat.pow 10 ex.toNat : Nat)) (Nat.pow 10 flen)
          else
            mkRat (sgn * mantissa) (Nat.pow 10 flen * Nat.pow 10 (-ex).toNat))
      else none

/-- Python `float()` on a decoded JSON value. -/
def pyFloat : Json → Except String Rat
  | .num q => .ok q
  | .bool b => .ok (if b then 1 else 0)
  | .str s =>
    match parsePyFloat s with
    | some q => .ok q
    | none => .error "ValueError: could not convert string to float"
  | _ => .error "TypeError: float argument"

/-- The curated bilingual knowledge-query term list of
`fallback_keyword_match`. -/
def knowledge_keywords : List String :=
  ["昨天", "前天", "上周", "之前", "以前", "过去",
   "发生了什么", "讨论了什么", "聊了什么", "记得",
   "查询", "查找", "搜索"]

/-- Match the regex `(\d{4})-(\d{1,2})-(\d{1,2})` at the head of the input,
with the greedy 2-then-1 backtracking of `\d{1,2}` before a literal `-`. -/
def matchMonthDay (rest : List Char) : Option (List Char) :=
  let try2 : Option (List Char) :=
    match rest with
    | m1 :: m2 :: '-' :: r2 =>
      if m1.isDigit && m2.isDigit then
        match r2 with
        | d1 :: d2 :: _ =>
          if d1.isDigit && d2.isDigit then some [m1, m2, '-', d1, d2]
          else if d1.isDigit then some [m1, m2, '-', d1] else none
        | [d1] => if d1.isDigit then some [m1, m2, '-', d1] else none
        | [] => none
      else none
    | _ => none
  match try2 with
  | some r => some r
  | none =>
    match rest with
    | m1 :: '-' :: r2 =>
      if m1.isDigit then
        match r2 with
        | d1 :: d2 :: _ =>
          if d1.isDigit && d2.isDigit then some [m1, '-', d1, d2]
          else if d1.isDigit then some [m1, '-', d1] else none
        | [d1] => if d1.isDigit then some [m1, '-', d1] else none
        | [] => none
      else none
    | _ => none

/-- Try the date regex at one start position (`\d{4}-` then month/day). -/
def matchDateAt (cs : List Char) : Option (List Char) :=
  match cs with
  | a :: b :: c :: d :: '-' :: rest =>
    if a.isDigit && b.isDigit && c.isDigit && d.isDigit then
      (matchMonthDay rest).map (fun md => [a, b, c, d, '-'] ++ md)
    else none
  | _ => none

/-- `re.search` for the date pattern: first matching start position. -/
def reSearchDate : List Char → Option (List Char)
  | [] => none
  | c :: rest =>
    match matchDateAt (c :: rest) with
    | some m => some m
    | none => reSearchDate rest

/-- `extract_date_keyword` from `intent_detector.py`. -/
def extract_date_keyword (text : String) : Option String :=
  let t := pyLower text
  if pySubstr "昨天" t || pySubstr "yesterday" t then some "yesterday"
  else if pySubstr "前天" t then some "day_before_yesterday"
  else if pySubstr "上周" t || pySubstr "last week" t then some "last_week"
  else if pySubstr "最近7天" t || pySubstr "最近一周" t then some "last_7_days"
  else if pySubstr "最近30天" t || pySubstr "最近一月" t then some "last_30_days"
  else (reSearchDate text.data).map String.mk

/-- `fallback_keyword_match` from `intent_detector.py`. -/
def fallback_keyword_match (response_text : String) : IntentResult :=
  let text_lower := pyLower response_text
  let has_knowledge_keyword := knowledge_keywords.any (fun k => pySubstr k text_lower)
  if has_knowledge_keyword then
    { intent := .str "KNOWLEDGE_QUERY"
      confidence := 6 / 10
      queryParams := .obj
        [("date",
          match extract_date_keyword text_lower with
          | some d => .str d
          | none => .null),
         ("keywords", .arr [])]
      reason := .str "关键词匹配"
      rawResponse := some response_text }
  else
    { intent := .str "NORMAL_CHAT"
      confidence := 5 / 10
      queryParams := .null
      reason := .str "关键词匹配（普通对话）"
      rawResponse := some response_text }

/-- `parse_intent_json` from `intent_detector.py`: strip an optional
markdown code fence (slicing to the closing fence, or to the last character
when there is none), decode as JSON, and normalize; a `JSONDecodeError`
falls back to keyword matching, while other errors (non-dict result, bad
`confidence`) escape to the caller. -/
def parse_intent_json (response_text : String) : Except String IntentResult :=
  let cs := response_text.data
  let cs2 :=
    match strFindOpt "```json".data cs with
    | some i =>
      let a := i + 7
      let e : Int :=
        match strFindOpt "```".data (cs.drop a) with
        | some j => ((a + j : Nat) : Int)
        | none => -1
      pyStripList (pySliceTo cs a e)
    | none =>
      match strFindOpt "```".data cs with
      | some i =>
        let a := i + 3
        let e : Int :=
          match strFindOpt "```".data (cs.drop a) with
          | some j => ((a + j : Nat) : Int)
          | none => -1
        pyStripList (pySliceTo cs a e)
      | none => cs
  let text2 := String.mk cs2
  match json_loads text2 with
  | none => .ok (fallback_keyword_match text2)
  | some j => do
    let kvs ←
      match j with
      | .obj kvs => Except.ok kvs
      | _ => Except.error "AttributeError: object has no attribute get"
    let intent := dictGetD kvs "intent" (.str "NORMAL_CHAT")
    let confidence ← pyFloat (dictGetD kvs "confidence" (.num 0))
    let query_params :=
      if (match intent with | .str s => s == "KNOWLEDGE_QUERY" | _ => false) then
        dictGetD kvs "query_params" .null
      else .null
    let reason := dictGetD kvs "reason" (.str "")
    pure ⟨intent, confidence, query_params, reason, some text2⟩

/-- `detect_agent_intent` from `intent_detector.py`: the model call is
modelled by its outcome `gw`; any raised error — from the call itself or
from response normalization — degrades to the default normal-conversation
intent with confidence 0 and no query parameters.  The total return type
shows that no exception reaches the caller. -/
def detect_agent_intent (gw : Except String String) : IntentResult :=
  match gw with
  | .error e =>
    { intent := .str "NORMAL_CHAT"
      confidence := 0
      queryParams := .null
      reason := .str ("识别失败，降级为普通对话: " ++ e)
      rawResponse := none }
  | .ok content =>
    match parse_intent_json (pyStrip content) with
    | .ok r => r
    | .error e =>
      { intent := .str "NORMAL_CHAT"
        confidence := 0
        queryParams := .null
        reason := .str ("识别失败，降级为普通对话: " ++ e)
        rawResponse := none }

/-! ### `service.py`: agent state and the state-changing operations

The relational state of one Agent: its immutable `initial_prompt`, the
stored (cached) `current_prompt` column, its `AgentPromptHistory` rows, its
`AgentKnowledgeIndex` rows, the messages of its single live session, and
`last_summarized_at`.  Database row ids and `created_at` timestamps are both
modelled by one monotone counter `clock`. -/

/-- One `AgentPromptHistory` row. -/
structure HistEntry where
  hid : Nat
  addedPrompt : String
  fullPromptBefore : String
  fullPromptAfter : String
  summaryDate : Int
  createdAt : Nat

/-- One live `AgentChatMessage`. -/
structure ChatMsg where
  role : String
  content : String

/-- The relational state of one Agent. -/
structure AgentState where
  initialPrompt : String
  currentPrompt : String
  histories : List HistEntry
  knowledge : List KEntry
  messages : List ChatMsg
  lastSummarizedAt : Option Nat
  clock : Nat

/-- `calculate_current_prompt` from `service.py`: join the initial prompt
and every surviving history delta, ordered by `created_at` ascending, with a
blank line between consecutive parts. -/
def calculate_current_prompt (initial_prompt : String) (histories : List HistEntry) : String :=
  String.intercalate "\n\n"
    (initial_prompt ::
      (histories.mergeSort (fun a b => decide (a.createdAt ≤ b.createdAt))).map
        (·.addedPrompt))

/-- `create_agent` from `service.py`: a fresh agent whose stored
`current_prompt` equals its `initial_prompt`, with an empty single session. -/
def create_agent (initial_prompt : String) : AgentState :=
  { initialPrompt := initial_prompt
    currentPrompt := initial_prompt
    histories := []
    knowledge := []
    messages := []
    lastSummarizedAt := none
    clock := 0 }

/-- Step 7 of `clear_chat_and_summarize` from `service.py`: the summary
model response is parsed defensively (fence stripping, greedy brace span,
`json.loads`), degrading to the raw response text with empty topic/keyword
lists on any error inside the inner `try` block.  The returned tuple is
`(added_prompt, summary_content, topics, key_points, keywords)`. -/
def parse_summary_response (raw_summary : String) :
    Json × Json × Json × Json × Json :=
  let attempt : Except String (Json × Json × Json × Json × Json) := do
    let summary_text := clean_markdown_code_block raw_summary
    let sd ←
      match re_search_braces summary_text.data with
      | some span =>
        match json_loads (String.mk span) with
        | some v => Except.ok v
        | none => Except.error "JSONDecodeError"
      | none =>
        match json_loads summary_text with
        | some v => Except.ok v
        | none => Except.error "JSONDecodeError"
    let kvs ←
      match sd with
      | .obj kvs => Except.ok kvs
      | _ => Except.error "AttributeError: object has no attribute get"
    let summary_content := dictGetD kvs "summary" (.str "")
    let topics := dictGetD kvs "topics" (.arr [])
    let key_points := dictGetD kvs "key_points" (.arr [])
    let keywords := dictGetD kvs "keywords" (.arr [])
    let impact := dictGetD kvs "impact" (.str "")
    let added_prompt ←
      if pyTruthy impact then do
        let istr ←
          match impact with
          | .str t => Except.ok t
          | _ => Except.error "AttributeError: object has no attribute strip"
        if !(pyStrip istr == "") then
          Except.ok (Json.str (pyStr summary_content ++ " 这段经历让我：" ++ istr))
        else Except.ok summary_content
      else Except.ok summary_content
    pure (added_prompt, summary_content, topics, key_points, keywords)
  match attempt with
  | .ok r => r
  | .error _ => (.str raw_summary, .str raw_summary, .arr [], .arr [], .arr [])

/-- The successful commit of `clear_chat_and_summarize`: one new
`AgentPromptHistory` row and its paired `AgentKnowledgeIndex` row, messages
hard-deleted, `current_prompt` recomputed and stored, `last_summarized_at`
stamped. -/
def consolidation_commit (s : AgentState) (today : Int) (added : String)
    (parsed : Json × Json × Json × Json × Json) : AgentState :=
  let current_prompt_before := calculate_current_prompt s.initialPrompt s.histories
  let hist : HistEntry :=
    { hid := s.clock
      addedPrompt := added
      fullPromptBefore := current_prompt_before
      fullPromptAfter := current_prompt_before ++ "\n\n" ++ added
      summaryDate := today
      createdAt := s.clock }
  let kidx : KEntry :=
    { promptHistoryId := s.clock
      summaryDate := today
      summarySummary := parsed.2.1
      topics := if pyTruthy parsed.2.2.1 then some parsed.2.2.1 else none
      keyPoints := if pyTruthy parsed.2.2.2.1 then some parsed.2.2.2.1 else none
      keywords := if pyTruthy parsed.2.2.2.2 then some parsed.2.2.2.2 else none
      messageCount := s.messages.length
      userMessageCount := (s.messages.filter (fun m => m.role == "user")).length }
  let histories' := s.histories ++ [hist]
  { s with
      histories := histories'
      knowledge := s.knowledge ++ [kidx]
      messages := []
      currentPrompt := calculate_current_prompt s.initialPrompt histories'
      lastSummarizedAt := some s.clock
      clock := s.clock + 1 }

/-- `clear_chat_and_summarize` from `service.py`.  `today` is
`date.today()`; `gw` is the outcome of the summarization model call
(`ask_with_messages`), whose failure rolls back and reports the error.  An
empty session returns `(True, None)` without touching anything.  A
non-string `added_prompt` (a non-string `"summary"` with falsy `"impact"`)
raises `TypeError` at the string concatenation for `full_prompt_after`,
rolling the transaction back. -/
def clear_chat_and_summarize (s : AgentState) (today : Int) (gw : Except String String) :
    AgentState × (Bool × Option Json) :=
  if s.messages.isEmpty then (s, (true, none))
  else
    match gw with
    | .error e => (s, (false, some (.str e)))
    | .ok raw_summary =>
      let parsed := parse_summary_response raw_summary
      match parsed.1 with
      | .str added =>
        (consolidation_commit s today added parsed, (true, some parsed.2.1))
      | _ => (s, (false, some (.str "TypeError: can only concatenate str")))

/-- `delete_latest_prompt_summary` from `service.py`: pick the history row
with the greatest `created_at` (`order_by desc` + `first`), delete it and
its paired knowledge row, recompute and store `current_prompt`, and report
the deleted date, the remaining row count and a 100-character preview.
With no history rows it returns `(False, None, 0, None)` untouched. -/
def delete_latest_prompt_summary (s : AgentState) :
    AgentState × (Bool × Option Int × Nat × Option String) :=
  match (s.histories.mergeSort (fun a b => decide (b.createdAt ≤ a.createdAt))).head? with
  | none => (s, (false, none, 0, none))
  | some latest =>
    let histories' := s.histories.filter (fun h => !(h.hid == latest.hid))
    let knowledge' := s.knowledge.filter (fun k => !(k.promptHistoryId == latest.hid))
    let cp := calculate_current_prompt s.initialPrompt histories'
    let preview := if cp.length > 100 then String.mk (cp.data.take 100) ++ "..." else cp
    ({ s with histories := histories', knowledge := knowledge', currentPrompt := cp },
      (true, some latest.summaryDate, histories'.length, some preview))

/-! ### Specification-side formulas (stated from the claims' wording) -/

/-- The prompt-composition formula as the specification words it: the base
prompt, then each surviving delta in order, each pair of parts separated by
exactly one blank line. -/
def spec_join_blank (base : String) : List String → String
  | [] => base
  | p :: ps => spec_join_blank (base ++ "\n\n" ++ p) ps

/-- The specification's derived `current_prompt` of an agent state:
`initial_prompt` joined with the surviving deltas ordered by creation time
ascending. -/
def spec_current_prompt (s : AgentState) : String :=
  spec_join_blank s.initialPrompt
    ((s.histories.mergeSort (fun a b => decide (a.createdAt ≤ b.createdAt))).map
      (·.addedPrompt))

/-- The spec invariant: the stored `current_prompt` column holds the derived
value. -/
def prompt_invariant (s : AgentState) : Prop :=
  s.currentPrompt = spec_current_prompt s

/-- Well-formedness of the identifier/timestamp counter: every stored row id
and creation stamp predates the clock. -/
def ClockBound (s : AgentState) : Prop :=
  (∀ h ∈ s.histories, h.createdAt < s.clock ∧ h.hid < s.clock) ∧
  (∀ k ∈ s.knowledge, k.promptHistoryId < s.clock)

/-- Claim C5's validity condition as worded: non-empty, at most 20 messages,
not all blank, and no individual (raw) message longer than 5000 characters. -/
def claimed_batch_valid (messages : List String) : Prop :=
  messages ≠ [] ∧ messages.length ≤ 20 ∧
    (∃ m ∈ messages, pyStrip m ≠ "") ∧ (∀ m ∈ messages, m.length ≤ 5000)

/-- Claim C6's scoring formula as worded: +1 per keyword occurring in the
summary, +2 per keyword matching any topic, +3 per keyword equal to any
indexed keyword — counting each query keyword at most once per bucket. -/
def claimed_match_score (index : KEntry) (keywords : List String) : Int :=
  ((keywords.countP fun k =>
      match index.summarySummary with
      | .str t => pySubstr (pyLower k) (pyLower t)
      | _ => false) : Int) +
  2 * ((keywords.countP fun k =>
      match index.topics with
      | some (.arr ts) => ts.any fun t => pySubstr (pyLower k) (pyLower (pyStr t))
      | _ => false) : Int) +
  3 * ((keywords.countP fun k =>
      match index.keywords with
      | some (.arr iks) => iks.any fun ik => pyLower k == pyLower (pyStr ik)
      | _ => false) : Int)

/-- The per-pair scoring formula that the code actually implements, written
as closed sums (the amended form of claim C6). -/
def spec_match_score (index : KEntry) (keywords : List String) :
    Except String Int := do
  let text_lower ←
    match index.summarySummary with
    | .str t => Except.ok (pyLower t)
    | _ => Except.error "AttributeError: object has no attribute lower"
  let s1 : Int := keywords.countP (fun k => pySubstr (pyLower k) text_lower)
  let s2 : Int ←
    match index.topics with
    | none => pure 0
    | some tj =>
      if pyTruthy tj then do
        let ts ← pyIterJson tj
        pure (2 * ((ts.map fun topic =>
          ((keywords.countP fun k =>
            pySubstr (pyLower k) (pyLower (pyStr topic))) : Int)).sum))
      else pure 0
  let s3 : Int ←
    match index.keywords with
    | none => pure 0
    | some kj =>
      if pyTruthy kj then do
        let iks ← pyIterJson kj
        pure (3 * ((iks.map fun index_keyword =>
          ((keywords.countP fun k =>
            pyLower k == pyLower (pyStr index_keyword)) : Int)).sum))
      else pure 0
  pure (s1 + s2 + s3)

/-- A reply element is a string or an object (the shapes `normalize_replies`
keeps; every other shape is silently dropped). -/
def isStrOrObj : Json → Bool
  | .str _ => true
  | .obj _ => true
  | _ => false

/-- Numeric payload of a delay value, for decidable statements. -/
def jsonDelayNum : Json → Option Rat
  | .num q => some q
  | _ => none

/-! ### Concrete inputs used by counterexamples and witnesses -/

/-- A fixed admissible outcome of `random.randint(1, 5)`. -/
def rng0 : Nat → Int := fun _ => 1

/-- A model response whose first reply explicitly proposes a 3-second delay. -/
def c3_input : String :=
  "\x7b\"replies\":[\x7b\"content\":\"A\",\"send_delay_seconds\":3\x7d]\x7d"

/-- A decodable model response whose `replies` array holds only a number. -/
def c4_failing_input : String := "\x7b\"replies\":[1]\x7d"

/-- A decodable model response with one string reply element. -/
def c4_ok_input : String := "\x7b\"replies\":[\"hi\"]\x7d"

/-- A 5001-character message whose trailing character is a space. -/
def c5_long_message : String := String.mk (List.replicate 5000 'a' ++ [' '])

/-- A knowledge entry whose `topics` lists the same topic twice. -/
def c6_entry : KEntry :=
  { promptHistoryId := 0
    summaryDate := 0
    summarySummary := .str ""
    topics := some (.arr [.str "x", .str "x"])
    keyPoints := none
    keywords := none
    messageCount := 0
    userMessageCount := 0 }

/-- An entry matching a keyword only in its summary text. -/
def c6_entry_sum : KEntry :=
  { promptHistoryId := 1
    summaryDate := 5
    summarySummary := .str "patient had fever today"
    topics := none
    keyPoints := none
    keywords := none
    messageCount := 0
    userMessageCount := 0 }

/-- An entry matching a keyword in its indexed keywords. -/
def c6_entry_kw : KEntry :=
  { promptHistoryId := 2
    summaryDate := 3
    summarySummary := .str "nothing here"
    topics := none
    keyPoints := none
    keywords := some (.arr [.str "fever"])
    messageCount := 0
    userMessageCount := 0 }

/-- The score function realized by the two concrete entries above under the
keyword `"fever"`. -/
def c6_score : KEntry → Int := fun e => if e.promptHistoryId = 1 then 1 else 3

/-- A fresh agent with one live user message. -/
def w_agent_chat : AgentState :=
  { initialPrompt := "你是一个友好的助手"
    currentPrompt := "你是一个友好的助手"
    histories := []
    knowledge := []
    messages := [⟨"user", "你好"⟩]
    lastSummarizedAt := none
    clock := 0 }

/-- A fresh agent with an empty live session. -/
def w_agent_empty : AgentState := create_agent "你是一个友好的助手"

/-! ### Helper lemmas -/

theorem intercalate_go_eq_spec_join (ps : List String) (acc : String) :
    String.intercalate.go acc "\n\n" ps = spec_join_blank acc ps := by
  induction ps generalizing acc with
  | nil => rfl
  | cons p ps ih =>
    simp only [String.intercalate.go, spec_join_blank]
    exact ih _

theorem calc_eq_spec_join (init : String) (hists : List HistEntry) :
    calculate_current_prompt init hists =
      spec_join_blank init
        ((hists.mergeSort (fun a b => decide (a.createdAt ≤ b.createdAt))).map
          (·.addedPrompt)) := by
  simp only [calculate_current_prompt, String.intercalate]
  exact intercalate_go_eq_spec_join _ _

theorem calc_eq_spec_current (s : AgentState) :
    calculate_current_prompt s.initialPrompt s.histories = spec_current_prompt s :=
  calc_eq_spec_join _ _

theorem head_mergeSort_desc (l : List HistEntry) (x : HistEntry)
    (hx : x ∈ l) (hmax : ∀ y ∈ l, y ≠ x → y.createdAt < x.createdAt) :
    (l.mergeSort (fun a b => decide (b.createdAt ≤ a.createdAt))).head? = some x := by
  have htrans : ∀ a b c : HistEntry,
      (fun a b : HistEntry => decide (b.createdAt ≤ a.createdAt)) a b = true →
      (fun a b : HistEntry => decide (b.createdAt ≤ a.createdAt)) b c = true →
      (fun a b : HistEntry => decide (b.createdAt ≤ a.createdAt)) a c = true := by
    intro a b c hab hbc
    simp only [decide_eq_true_eq] at hab hbc ⊢
    omega
  have htotal : ∀ a b : HistEntry,
      ((fun a b : HistEntry => decide (b.createdAt ≤ a.createdAt)) a b ||
       (fun a b : HistEntry => decide (b.createdAt ≤ a.createdAt)) b a) = true := by
    intro a b
    simp only [Bool.or_eq_true, decide_eq_true_eq]
    omega
  have hsort := List.sorted_mergeSort htrans htotal l
  cases hms : l.mergeSort (fun a b => decide (b.createdAt ≤ a.createdAt)) with
  | nil =>
    exact absurd (List.mem_mergeSort.mpr hx) (by rw [hms]; simp)
  | cons h t =>
    have hh : h ∈ l := List.mem_mergeSort.mp (by rw [hms]; exact List.mem_cons_self _ _)
    rcases eq_or_ne h x with rfl | hne
    · rfl
    · exfalso
      have hlt : h.createdAt < x.createdAt := hmax h hh hne
      have hxms : x ∈ l.mergeSort (fun a b => decide (b.createdAt ≤ a.createdAt)) :=
        List.mem_mergeSort.mpr hx
      rw [hms] at hxms
      rcases List.mem_cons.mp hxms with rfl | hxt
      · exact hne rfl
      · rw [hms] at hsort
        have := (List.rel_of_pairwise_cons hsort hxt)
        simp only [decide_eq_true_eq] at this
        omega

theorem foldl_add_if_count {α : Type} (p : α → Bool) (w : Int) (l : List α) (acc : Int) :
    l.foldl (fun a x => if p x then a + w else a) acc = acc + w * l.countP p := by
  induction l generalizing acc with
  | nil => simp
  | cons x xs ih =>
    simp only [List.foldl_cons, List.countP_cons]
    cases hp : p x <;> simp only [hp, if_true, if_false, ih] <;> push_cast <;> ring

theorem foldl_add_sum {β : Type} (g : β → Int) (ts : List β) (acc : Int) :
    ts.foldl (fun a t => a + g t) acc = acc + (ts.map g).sum := by
  induction ts generalizing acc with
  | nil => simp
  | cons t ts ih =>
    simp only [List.foldl_cons, List.map_cons, List.sum_cons, ih]
    ring

theorem foldl_nested_sum {α β : Type} (inner : α → β → Bool) (w : Int) (kws : List α)
    (ts : List β) (acc : Int) :
    ts.foldl (fun a t => kws.foldl (fun a2 k => if inner k t then a2 + w else a2) a) acc
      = acc + w * ((ts.map (fun t => ((kws.countP (fun k => inner k t)) : Int))).sum) := by
  have hfun :
      (fun (a : Int) (t : β) => kws.foldl (fun a2 k => if inner k t then a2 + w else a2) a)
        = fun (a : Int) (t : β) => a + w * (kws.countP (fun k => inner k t) : Int) := by
    funext a t
    exact foldl_add_if_count _ _ _ _
  rw [hfun, foldl_add_sum]
  congr 1
  rw [← List.sum_map_mul_left]

/-! ### Claim theorems -/

/-- C7: if the intent classifier's model call itself raises any error,
`detect_agent_intent` returns the normal-conversation intent `NORMAL_CHAT`
with confidence 0 and null query parameters; being a total function into
`IntentResult`, it never propagates an exception to the caller. -/
theorem C7_detect_intent_error_fallback (e : String) :
    (detect_agent_intent (.error e)).intent = .str "NORMAL_CHAT" ∧
    (detect_agent_intent (.error e)).confidence = 0 ∧
    (detect_agent_intent (.error e)).queryParams = .null :=
  ⟨rfl, rfl, rfl⟩

/-- C9: any internal error during knowledge retrieval — the database query
or any later step of `search_agent_knowledge_body` — yields an empty result
list; the total return type of `search_agent_knowledge` shows no exception
reaches the caller. -/
theorem C9_search_error_empty (dbRows : Except String (List KEntry))
    (dates : Option (List Int)) (keywords : Option (List String)) (limit : Nat)
    (msg : String)
    (h : search_agent_knowledge_body dbRows dates keywords limit = .error msg) :
    search_agent_knowledge dbRows dates keywords limit = [] := by
  simp [search_agent_knowledge, h]

/-- Witness for C9 at a concrete failing backend. -/
theorem C9_search_error_empty_witness :
    search_agent_knowledge (.error "database failure") none none 5 = [] :=
  C9_search_error_empty (.error "database failure") none none 5 "database failure" rfl

/-- C10: undo-last on an agent with no `PromptHistory` rows returns the
failure tuple `(False, None, 0, None)` and leaves the state untouched. -/
theorem C10_undo_without_history (s : AgentState) (h : s.histories = []) :
    delete_latest_prompt_summary s = (s, (false, none, 0, none)) := by
  simp [delete_latest_prompt_summary, h]

/-- Witness for C10 on a freshly created agent. -/
theorem C10_undo_without_history_witness :
    delete_latest_prompt_summary w_agent_empty = (w_agent_empty, (false, none, 0, none)) :=
  C10_undo_without_history w_agent_empty rfl

/-- C8: consolidation on an empty live session is a successful no-op:
`(True, None)` is returned, and the state — histories, knowledge rows,
messages, stored prompt, timestamps — is unchanged; hence repeating it any
number of times has the same null effect. -/
theorem C8_consolidate_empty_noop (s : AgentState) (today : Int)
    (gw : Except String String) (h : s.messages = []) :
    clear_chat_and_summarize s today gw = (s, (true, none)) := by
  simp [clear_chat_and_summarize, h]

/-- Witness for C8 on a freshly created agent. -/
theorem C8_consolidate_empty_noop_witness :
    clear_chat_and_summarize w_agent_empty 0 (.ok "response") =
      (w_agent_empty, (true, none)) :=
  C8_consolidate_empty_noop w_agent_empty 0 (.ok "response") rfl

/-- C3 counterexample: on a response whose first reply explicitly proposes
`send_delay_seconds = 3`, the parsed batch's first reply keeps delay 3 — it
is not forced to 0. -/
theorem C3_counterexample :
    ((safe_parse_agent_reply rng0 c3_input).head?.map
        (fun r => jsonDelayNum r.sendDelaySeconds)) = some (some 3) ∧
    (3 : Rat) ≠ 0 := by
  exact ⟨rfl, by norm_num⟩

/-- C4 counterexample: `'{"replies":[1]}'` decodes, its `replies` list is
truthy, but normalization drops the numeric element, so the parser returns
zero replies. -/
theorem C4_counterexample :
    safe_parse_agent_reply rng0 c4_failing_input = [] := rfl

/-- C6 counterexample: with the keyword `"x"` and an entry whose topics list
is `["x", "x"]`, the code scores +2 per (topic, keyword) pair — total 4 —
while the claim's per-keyword formula gives 2. -/
theorem C6_counterexample :
    calculate_match_score c6_entry ["x"] = .ok 4 ∧
    claimed_match_score c6_entry ["x"] = 2 ∧ (4 : Int) ≠ 2 :=
  ⟨rfl, rfl, by norm_num⟩

/-- C1: the stored `current_prompt` equals the specification's derived value
— `initial_prompt` followed by every surviving history delta in creation
order, each pair of parts separated by one blank line — after agent
creation, after every consolidation (including its no-op and rollback
outcomes), and after undo-last. -/
theorem C1_current_prompt_invariant :
    (∀ p, prompt_invariant (create_agent p)) ∧
    (∀ s today gw, prompt_invariant s →
        prompt_invariant (clear_chat_and_summarize s today gw).1) ∧
    (∀ s, prompt_invariant s → prompt_invariant (delete_latest_prompt_summary s).1) := by
  refine ⟨?_, ?_, ?_⟩
  · intro p
    simp [prompt_invariant, create_agent, spec_current_prompt, spec_join_blank]
  · intro s today gw hs
    unfold clear_chat_and_summarize
    split
    · exact hs
    · split
      · exact hs
      · dsimp only
        split
        · unfold prompt_invariant spec_current_prompt consolidation_commit
          dsimp only
          exact calc_eq_spec_join _ _
        · exact hs
  · intro s hs
    unfold delete_latest_prompt_summary
    split
    · exact hs
    · unfold prompt_invariant spec_current_prompt
      dsimp only
      exact calc_eq_spec_join _ _

/-- Witness for C1 at concrete states: a fresh agent, a consolidation of a
one-message session, and an undo on the consolidated state. -/
theorem C1_current_prompt_invariant_witness :
    prompt_invariant (create_agent "p") ∧
    prompt_invariant (clear_chat_and_summarize w_agent_chat 0 (.ok "sum")).1 ∧
    prompt_invariant (delete_latest_prompt_summary w_agent_chat).1 :=
  ⟨C1_current_prompt_invariant.1 "p",
   C1_current_prompt_invariant.2.1 w_agent_chat 0 (.ok "sum")
     (by simp [prompt_invariant, w_agent_chat, spec_current_prompt, spec_join_blank]),
   C1_current_prompt_invariant.2.2 w_agent_chat
     (by simp [prompt_invariant, w_agent_chat, spec_current_prompt, spec_join_blank])⟩

/-- Undo-last on a state that extends `s` by exactly one fresh
history/knowledge pair (ids and timestamp at `s.clock`) deletes exactly that
pair and stores the recomputation of `s`'s prompt. -/
theorem delete_after_append (s : AgentState) (hist : HistEntry) (kidx : KEntry)
    (t : AgentState)
    (ht_h : t.histories = s.histories ++ [hist])
    (ht_k : t.knowledge = s.knowledge ++ [kidx])
    (ht_init : t.initialPrompt = s.initialPrompt)
    (hhid : hist.hid = s.clock) (hca : hist.createdAt = s.clock)
    (hkid : kidx.promptHistoryId = s.clock)
    (hcb : ClockBound s) :
    (delete_latest_prompt_summary t).2.1 = true ∧
    (delete_latest_prompt_summary t).1.histories = s.histories ∧
    (delete_latest_prompt_summary t).1.knowledge = s.knowledge ∧
    (delete_latest_prompt_summary t).1.currentPrompt =
      calculate_current_prompt s.initialPrompt s.histories := by
  have hmem : hist ∈ t.histories := by
    rw [ht_h]
    exact List.mem_append_right _ (List.mem_singleton.mpr rfl)
  have hmax : ∀ y ∈ t.histories, y ≠ hist → y.createdAt < hist.createdAt := by
    intro y hy hne
    rw [ht_h] at hy
    rcases List.mem_append.mp hy with hys | hyh
    · rw [hca]
      exact (hcb.1 y hys).1
    · exact absurd (List.mem_singleton.mp hyh) hne
  have hhead := head_mergeSort_desc t.histories hist hmem hmax
  have hfh : t.histories.filter (fun h => !(h.hid == hist.hid)) = s.histories := by
    rw [ht_h, List.filter_append]
    have h1 : List.filter (fun h => !(h.hid == hist.hid)) [hist] = [] := by simp
    have h2 : List.filter (fun h => !(h.hid == hist.hid)) s.histories = s.histories := by
      apply List.filter_eq_self.mpr
      intro a ha
      have hlt : a.hid < s.clock := (hcb.1 a ha).2
      have hne : a.hid ≠ s.clock := Nat.ne_of_lt hlt
      simp [hhid, hne]
    rw [h1, h2, List.append_nil]
  have hfk : t.knowledge.filter (fun k => !(k.promptHistoryId == hist.hid)) = s.knowledge := by
    rw [ht_k, List.filter_append]
    have h1 : List.filter (fun k => !(k.promptHistoryId == hist.hid)) [kidx] = [] := by
      simp [hkid, hhid]
    have h2 : List.filter (fun k => !(k.promptHistoryId == hist.hid)) s.knowledge
        = s.knowledge := by
      apply List.filter_eq_self.mpr
      intro a ha
      have hlt : a.promptHistoryId < s.clock := hcb.2 a ha
      have hne : a.promptHistoryId ≠ s.clock := Nat.ne_of_lt hlt
      simp [hhid, hne]
    rw [h1, h2, List.append_nil]
  unfold delete_latest_prompt_summary
  rw [hhead]
  dsimp only
  rw [hfh, hfk, ht_init]
  exact ⟨rfl, rfl, rfl, rfl⟩

/-- C2: on a non-empty live session, a successful consolidation followed
immediately by undo-last reports success, restores the derived and stored
`current_prompt` to its exact pre-consolidation string, and deletes exactly
the `PromptHistory` row and the paired `KnowledgeIndex` row that the
consolidation created, leaving both tables as before. -/
theorem C2_consolidate_undo (s : AgentState) (today : Int) (raw : String)
    (hcb : ClockBound s) (hinv : prompt_invariant s) (hm : s.messages ≠ [])
    (hsucc : (clear_chat_and_summarize s today (.ok raw)).2.1 = true) :
    (delete_latest_prompt_summary (clear_chat_and_summarize s today (.ok raw)).1).2.1
        = true ∧
    (delete_latest_prompt_summary
        (clear_chat_and_summarize s today (.ok raw)).1).1.currentPrompt
        = s.currentPrompt ∧
    (delete_latest_prompt_summary (clear_chat_and_summarize s today (.ok raw)).1).1.histories
        = s.histories ∧
    (delete_latest_prompt_summary (clear_chat_and_summarize s today (.ok raw)).1).1.knowledge
        = s.knowledge := by
  have hie : s.messages.isEmpty = false := by
    cases hsm : s.messages with
    | nil => exact absurd hsm hm
    | cons a l => simp
  unfold clear_chat_and_summarize at hsucc ⊢
  simp only [hie, Bool.false_eq_true, if_false] at hsucc ⊢
  cases hp : (parse_summary_response raw).1 with
  | str added =>
    simp only [hp] at hsucc ⊢
    have hd := delete_after_append s
      { hid := s.clock
        addedPrompt := added
        fullPromptBefore := calculate_current_prompt s.initialPrompt s.histories
        fullPromptAfter :=
          calculate_current_prompt s.initialPrompt s.histories ++ "\n\n" ++ added
        summaryDate := today
        createdAt := s.clock }
      { promptHistoryId := s.clock
        summaryDate := today
        summarySummary := (parse_summary_response raw).2.1
        topics :=
          if pyTruthy (parse_summary_response raw).2.2.1 then
            some (parse_summary_response raw).2.2.1
          else none
        keyPoints :=
          if pyTruthy (parse_summary_response raw).2.2.2.1 then
            some (parse_summary_response raw).2.2.2.1
          else none
        keywords :=
          if pyTruthy (parse_summary_response raw).2.2.2.2 then
            some (parse_summary_response raw).2.2.2.2
          else none
        messageCount := s.messages.length
        userMessageCount := (s.messages.filter (fun m => m.role == "user")).length }
      (consolidation_commit s today added (parse_summary_response raw))
      rfl rfl rfl rfl rfl rfl hcb
    exact ⟨hd.1, hd.2.2.2.trans ((calc_eq_spec_current s).trans hinv.symm),
           hd.2.1, hd.2.2.1⟩
  | null => simp only [hp] at hsucc; exact absurd hsucc (by simp)
  | bool b => simp only [hp] at hsucc; exact absurd hsucc (by simp)
  | num q => simp only [hp] at hsucc; exact absurd hsucc (by simp)
  | arr xs => simp only [hp] at hsucc; exact absurd hsucc (by simp)
  | obj kvs => simp only [hp] at hsucc; exact absurd hsucc (by simp)

/-- Stripping a run of letters followed by one space leaves the letters. -/
theorem strip_repl_space (n : Nat) :
    pyStrip (String.mk (List.replicate (n + 1) 'a' ++ [' '])) =
      String.mk (List.replicate (n + 1) 'a') := by
  have ha : pyIsSpace 'a' = false := rfl
  have hs : pyIsSpace ' ' = true := rfl
  unfold pyStrip pyStripList
  dsimp only
  simp [List.dropWhile_append, List.dropWhile_replicate, ha, hs, List.isEmpty_iff,
    List.reverse_append, List.dropWhile_cons]

/-- Length of a replicated-letter string. -/
theorem len_repl (n : Nat) : (String.mk (List.replicate n 'a')).length = n := by
  simp [String.length]

/-- Length of a replicated-letter string with one trailing space. -/
theorem len_repl_space (n : Nat) :
    (String.mk (List.replicate n 'a' ++ [' '])).length = n + 1 := by
  simp [String.length]

/-- A non-empty replicated-letter string is not the empty string. -/
theorem repl_ne_empty (n : Nat) : (String.mk (List.replicate (n + 1) 'a') == "") = false := by
  rw [beq_eq_false_iff_ne]
  intro h
  have h2 := congrArg String.data h
  simp at h2


/-- C5 counterexample: a 5001-character message whose last character is a
space passes validation — the length check runs on the trimmed message —
although the claim requires rejecting any list containing an individual
message exceeding 5000 characters. -/
theorem C5_counterexample :
    c5_long_message.length = 5001 ∧
    ¬ claimed_batch_valid [c5_long_message] ∧
    (validate_batch_messages [c5_long_message]).1 = true := by
  have hlen : c5_long_message.length = 5001 := by
    show (String.mk (List.replicate 5000 'a' ++ [' '])).length = 5001
    exact len_repl_space 5000
  refine ⟨hlen, ?_, ?_⟩
  · intro h
    have := h.2.2.2 c5_long_message (by simp)
    omega
  show (validate_batch_messages [String.mk (List.replicate (4999 + 1) 'a' ++ [' '])]).1 = true
  unfold validate_batch_messages
  have h1 : ([String.mk (List.replicate (4999 + 1) 'a' ++ [' '])] : List String).isEmpty
      = false := rfl
  have h2 : ([String.mk (List.replicate (4999 + 1) 'a' ++ [' '])] : List String).length
      = 1 := rfl
  rw [h1, h2]
  simp only [Bool.false_eq_true, if_false]
  rw [if_neg (by norm_num : ¬(1 : Nat) > 20)]
  rw [List.map_cons, List.map_nil, strip_repl_space 4999]
  rw [List.filter_cons, repl_ne_empty 4999]
  simp only [Bool.not_false, if_pos, List.filter_nil, List.isEmpty_cons, Bool.false_eq_true,
    if_false]
  rw [List.enum]
  simp only [List.enumFrom]
  rw [List.find?_cons]
  rw [len_repl (4999 + 1)]
  norm_num


/-- C5 amended: validation rejects the empty list, more than 20 messages,
all-blank lists, and any list whose *trimmed* messages include one longer
than 5000 characters — each with its own distinct error — and succeeds on
every other list. -/
theorem C5_amended (messages : List String) :
    ((validate_batch_messages messages).1 = true ↔
      (messages ≠ [] ∧ messages.length ≤ 20 ∧
       (∃ m ∈ messages, pyStrip m ≠ "") ∧
       (∀ m ∈ messages, (pyStrip m).length ≤ 5000))) ∧
    (messages = [] → validate_batch_messages messages = (false, some "消息列表不能为空")) ∧
    (messages ≠ [] → messages.length > 20 →
      validate_batch_messages messages = (false, some "单次最多发送20条消息")) ∧
    (messages ≠ [] → messages.length ≤ 20 → (∀ m ∈ messages, pyStrip m = "") →
      validate_batch_messages messages = (false, some "所有消息都为空")) ∧
    (messages ≠ [] → messages.length ≤ 20 → (∃ m ∈ messages, pyStrip m ≠ "") →
      (∃ m ∈ messages, 5000 < (pyStrip m).length) →
      ∃ i, validate_batch_messages messages =
        (false, some ("第" ++ toString (i + 1) ++ "条消息长度超过5000字符"))) := by
  by_cases hnil : messages = []
  · subst hnil
    refine ⟨by simp [validate_batch_messages], fun _ => rfl, ?_, ?_, ?_⟩
    · intro h; exact absurd rfl h
    · intro h; exact absurd rfl h
    · intro h; exact absurd rfl h
  · have hie : messages.isEmpty = false := by
      cases messages with
      | nil => exact absurd rfl hnil
      | cons a l => rfl
    by_cases hlen : messages.length > 20
    · have hv : validate_batch_messages messages = (false, some "单次最多发送20条消息") := by
        unfold validate_batch_messages
        rw [hie]
        simp only [Bool.false_eq_true, if_false]
        rw [if_pos hlen]
      refine ⟨?_, fun h => absurd h hnil, fun _ _ => hv, ?_, ?_⟩
      · rw [hv]
        constructor
        · intro h; exact absurd h (by simp)
        · rintro ⟨-, h2, -⟩; omega
      · intro _ h; omega
      · intro _ h; omega
    · have hlen' : messages.length ≤ 20 := by omega
      set filtered := (messages.map pyStrip).filter (fun m => !(m == "")) with hfil
      have hv0 : validate_batch_messages messages =
          (if filtered.isEmpty then ((false : Bool), some "所有消息都为空")
           else
             match filtered.enum.find? (fun p => decide (p.2.length > 5000)) with
             | some p =>
               (false, some ("第" ++ toString (p.1 + 1) ++ "条消息长度超过5000字符"))
             | none => (true, none)) := by
        unfold validate_batch_messages
        rw [hie]
        simp only [Bool.false_eq_true, if_false]
        rw [if_neg hlen]
      have hfil_nil : (filtered = []) ↔ (∀ m ∈ messages, pyStrip m = "") := by
        rw [hfil]
        simp [List.filter_eq_nil_iff, List.mem_map]
      have hmem_fil : ∀ x, x ∈ filtered ↔ ((∃ m ∈ messages, pyStrip m = x) ∧ x ≠ "") := by
        intro x
        rw [hfil]
        simp [List.mem_filter, List.mem_map]
      have hfind_iff :
          (filtered.enum.find? (fun p => decide (p.2.length > 5000)) = none) ↔
            ∀ m ∈ messages, (pyStrip m).length ≤ 5000 := by
        rw [List.find?_eq_none]
        constructor
        · intro h m hm
          by_cases hz : pyStrip m = ""
          · rw [hz]; norm_num [String.length]
          · have hx : pyStrip m ∈ filtered := (hmem_fil _).mpr ⟨⟨m, hm, rfl⟩, hz⟩
            obtain ⟨i, hi, hgx⟩ := List.mem_iff_getElem.mp hx
            have hmemp : (i, pyStrip m) ∈ filtered.enum := by
              rw [← hgx]
              have hlti : i < filtered.enum.length := by simpa using hi
              have hge := List.getElem_enum filtered i hlti
              rw [← hge]
              exact List.getElem_mem _
            have := h _ hmemp
            simpa using this
        · intro hall p hp
          obtain ⟨i, x⟩ := p
          obtain ⟨hlt, hx⟩ := List.mem_enum hp
          have hxf : x ∈ filtered := by rw [hx]; exact List.getElem_mem _
          obtain ⟨⟨m, hm, hsm⟩, hxne⟩ := (hmem_fil _).mp hxf
          have := hall m hm
          rw [hsm] at this
          simpa using this
      refine ⟨?_, fun h => absurd h hnil, fun _ h => absurd h hlen, ?_, ?_⟩
      · rw [hv0]
        by_cases hfe : filtered = []
        · rw [hfe]
          simp only [List.isEmpty_nil, if_pos]
          constructor
          · intro h; exact absurd h (by simp)
          · rintro ⟨-, -, ⟨m, hm, hne⟩, -⟩
            exact absurd (hfil_nil.mp hfe m hm) hne
        · have hfeb : filtered.isEmpty = false := by
            cases hfc : filtered with
            | nil => exact absurd hfc hfe
            | cons a l => rfl
          rw [hfeb]
          simp only [Bool.false_eq_true, if_false]
          have hex : ∃ m ∈ messages, pyStrip m ≠ "" := by
            by_contra hno
            push_neg at hno
            exact hfe (hfil_nil.mpr hno)
          cases hfind : filtered.enum.find? (fun p => decide (p.2.length > 5000)) with
          | none =>
            simp only []
            constructor
            · intro _
              exact ⟨hnil, hlen', hex, hfind_iff.mp hfind⟩
            · intro _; trivial
          | some p =>
            simp only []
            constructor
            · intro h; exact absurd h (by simp)
            · rintro ⟨-, -, -, hall⟩
              rw [← hfind_iff] at hall
              rw [hall] at hfind
              exact absurd hfind (by simp)
      · intro _ _ hblank
        rw [hv0]
        have hff : filtered = [] := hfil_nil.mpr hblank
        rw [hff]
        simp
      · intro _ _ hsome hlong
        rw [hv0]
        have hfe : filtered ≠ [] := by
          obtain ⟨m, hm, hne⟩ := hsome
          intro hc
          exact hne (hfil_nil.mp hc m hm)
        have hfeb : filtered.isEmpty = false := by
          cases hfc : filtered with
          | nil => exact absurd hfc hfe
          | cons a l => rfl
        rw [hfeb]
        simp only [Bool.false_eq_true, if_false]
        cases hfind : filtered.enum.find? (fun p => decide (p.2.length > 5000)) with
        | none =>
          obtain ⟨m, hm, hgt⟩ := hlong
          have := hfind_iff.mp hfind m hm
          omega
        | some p =>
          exact ⟨p.1, rfl⟩

/-- Witness for C5's amended characterization: a valid two-message batch and
the empty-list rejection. -/
theorem C5_amended_witness :
    (validate_batch_messages ["hi", "who are you"]).1 = true ∧
    validate_batch_messages [] = (false, some "消息列表不能为空") := by
  constructor
  · refine (C5_amended ["hi", "who are you"]).1.mpr ⟨by simp, by simp, ⟨"hi", by simp, by decide⟩, ?_⟩
    intro m hm
    simp only [List.mem_cons, List.not_mem_nil, or_false] at hm
    rcases hm with rfl | rfl <;> decide
  · exact (C5_amended []).2.1 rfl

/-- Witness for C2 on a one-message session whose summary response is plain
text (exercising the fallback summary path). -/
theorem C2_consolidate_undo_witness :
    (delete_latest_prompt_summary
        (clear_chat_and_summarize w_agent_chat 0 (.ok "sum")).1).1.currentPrompt
      = w_agent_chat.currentPrompt ∧
    (delete_latest_prompt_summary
        (clear_chat_and_summarize w_agent_chat 0 (.ok "sum")).1).1.histories
      = w_agent_chat.histories ∧
    (delete_latest_prompt_summary
        (clear_chat_and_summarize w_agent_chat 0 (.ok "sum")).1).1.knowledge
      = w_agent_chat.knowledge :=
  have h := C2_consolidate_undo w_agent_chat 0 "sum"
    (by constructor <;> simp [w_agent_chat])
    (by simp [prompt_invariant, w_agent_chat, spec_current_prompt, spec_join_blank])
    (by simp [w_agent_chat])
    rfl
  ⟨h.2.1, h.2.2.1, h.2.2.2⟩

/-- Normalization of a non-empty reply list whose first element normalizes
to a kept reply puts that reply first. -/
theorem normalize_replies_cons_head (rng : Nat → Int) (x : Json) (rest : List Json)
    (out : List Reply) (r0 : Reply)
    (h0 : normalize_one_reply rng 0 x = .ok (some r0))
    (h : normalize_replies rng (x :: rest) = .ok out) :
    out.head? = some r0 := by
  unfold normalize_replies at h
  rw [List.enum_cons, List.mapM_cons] at h
  cases hm : (rest.enumFrom 1).mapM (fun p => normalize_one_reply rng p.1 p.2) with
  | error e =>
    rw [h0, hm] at h
    simp [Bind.bind, Except.bind, Pure.pure, Except.pure] at h
  | ok ys =>
    rw [h0, hm] at h
    simp only [Bind.bind, Except.bind, Pure.pure, Except.pure, Except.ok.injEq] at h
    subst h
    rfl

/-- First-position dict reply with an explicit numeric delay: the delay is
clamped to [0, 10], not forced to 0. -/
theorem normalize_one_obj_delay (rng : Nat → Int) (kvs : List (String × Json)) (q : Rat)
    (hl : objLookup kvs "send_delay_seconds" = some (.num q)) :
    normalize_one_reply rng 0 (.obj kvs) =
      .ok (some ⟨dictGetD kvs "content" (.str ""),
        .num (if q < 0 then 0 else if q > 10 then 10 else q)⟩) := by
  unfold normalize_one_reply
  dsimp only
  have hd : dictGetD kvs "send_delay_seconds" (.num 0) = .num q := by
    simp [dictGetD, hl]
  rw [hd]
  simp [normalize_delay, Bind.bind, Except.bind, Pure.pure, Except.pure]

/-- First-position dict reply without a delay entry: delay 0. -/
theorem normalize_one_obj_nodelay (rng : Nat → Int) (kvs : List (String × Json))
    (hl : objLookup kvs "send_delay_seconds" = none) :
    normalize_one_reply rng 0 (.obj kvs) =
      .ok (some ⟨dictGetD kvs "content" (.str ""), .num 0⟩) := by
  unfold normalize_one_reply
  dsimp only
  have hd : dictGetD kvs "send_delay_seconds" (.num 0) = .num 0 := by
    simp [dictGetD, hl]
  rw [hd]
  norm_num [normalize_delay, pyEq0, Bind.bind, Except.bind, Pure.pure, Except.pure]

/-- First-position bare-string reply: delay 0. -/
theorem normalize_one_str (rng : Nat → Int) (s : String) :
    normalize_one_reply rng 0 (.str s) = .ok (some ⟨.str s, .num 0⟩) := by
  unfold normalize_one_reply calculate_reply_delay
  dsimp only
  norm_num
  rfl

/-- C3 amended: the first parsed reply's `send_delay_seconds` equals the
model's explicitly proposed numeric delay clamped to `[0, 10]`; it is 0 only
when the proposal is absent (or the first reply is a bare string, or the
proposal is non-positive via the clamp). -/
theorem C3_amended :
    (∀ (rng : Nat → Int) (kvs : List (String × Json)) (rest : List Json)
        (out : List Reply) (q : Rat),
        objLookup kvs "send_delay_seconds" = some (.num q) →
        normalize_replies rng (.obj kvs :: rest) = .ok out →
        out.head? = some ⟨dictGetD kvs "content" (.str ""),
          .num (if q < 0 then 0 else if q > 10 then 10 else q)⟩) ∧
    (∀ (rng : Nat → Int) (kvs : List (String × Json)) (rest : List Json)
        (out : List Reply),
        objLookup kvs "send_delay_seconds" = none →
        normalize_replies rng (.obj kvs :: rest) = .ok out →
        out.head? = some ⟨dictGetD kvs "content" (.str ""), .num 0⟩) ∧
    (∀ (rng : Nat → Int) (s : String) (rest : List Json) (out : List Reply),
        normalize_replies rng (.str s :: rest) = .ok out →
        out.head? = some ⟨.str s, .num 0⟩) := by
  refine ⟨?_, ?_, ?_⟩
  · intro rng kvs rest out q hl h
    exact normalize_replies_cons_head rng _ rest out _
      (normalize_one_obj_delay rng kvs q hl) h
  · intro rng kvs rest out hl h
    exact normalize_replies_cons_head rng _ rest out _
      (normalize_one_obj_nodelay rng kvs hl) h
  · intro rng s rest out h
    exact normalize_replies_cons_head rng _ rest out _ (normalize_one_str rng s) h

/-- Witness for C3's amended statement at the concrete first reply
`{"content": "A", "send_delay_seconds": 3}`. -/
theorem C3_amended_witness :
    objLookup [("content", Json.str "A"), ("send_delay_seconds", Json.num 3)]
      "send_delay_seconds" = some (.num 3) ∧
    ([⟨Json.str "A", Json.num 3⟩] : List Reply).head? =
      some ⟨dictGetD [("content", Json.str "A"), ("send_delay_seconds", Json.num 3)]
          "content" (.str ""),
        .num (if (3 : Rat) < 0 then 0 else if (3 : Rat) > 10 then 10 else 3)⟩ :=
  ⟨rfl, C3_amended.1 rng0 [("content", Json.str "A"), ("send_delay_seconds", Json.num 3)]
    [] [⟨Json.str "A", Json.num 3⟩] 3 rfl rfl⟩
/-- A successful `mapM` contains a successful image of every input. -/
theorem mapM_ok_mem {α β : Type} (g : α → Except String β) :
    ∀ {l : List α} {os : List β}, l.mapM g = .ok os → ∀ {x : α}, x ∈ l →
      ∃ o ∈ os, g x = .ok o := by
  intro l
  induction l with
  | nil => intro os h x hx; cases hx
  | cons a as ih =>
    intro os h x hx
    rw [List.mapM_cons] at h
    cases hg : g a with
    | error e =>
      rw [hg] at h
      simp [Bind.bind, Except.bind] at h
    | ok o =>
      rw [hg] at h
      cases hm : as.mapM g with
      | error e =>
        rw [hm] at h
        simp [Bind.bind, Except.bind] at h
      | ok os2 =>
        rw [hm] at h
        simp only [Bind.bind, Except.bind, Pure.pure, Except.pure, Except.ok.injEq] at h
        subst h
        rcases List.mem_cons.mp hx with rfl | hxs
        · exact ⟨o, List.mem_cons_self _ _, hg⟩
        · obtain ⟨o2, ho2, hgo2⟩ := ih hm hxs
          exact ⟨o2, List.mem_cons_of_mem _ ho2, hgo2⟩

/-- A string or dict reply element that normalizes successfully is kept. -/
theorem normalize_one_isSome (rng : Nat → Int) (i : Nat) (x : Json)
    (o : Option Reply) (h : normalize_one_reply rng i x = .ok o)
    (hx : isStrOrObj x = true) : ∃ r, o = some r := by
  cases x with
  | str s =>
    unfold normalize_one_reply at h
    dsimp only at h
    simp only [Pure.pure, Except.pure, Except.ok.injEq] at h
    exact ⟨_, h.symm⟩
  | obj kvs =>
    unfold normalize_one_reply at h
    dsimp only at h
    split at h
    · cases hl : pyLen (dictGetD kvs "content" (Json.str "")) with
      | error e => rw [hl] at h; simp [Bind.bind, Except.bind] at h
      | ok n =>
        rw [hl] at h
        simp only [Bind.bind, Except.bind, Pure.pure, Except.pure, Except.ok.injEq] at h
        exact ⟨_, h.symm⟩
    · cases hd : normalize_delay (dictGetD kvs "send_delay_seconds" (Json.num 0)) with
      | error e => rw [hd] at h; simp [Bind.bind, Except.bind] at h
      | ok d =>
        rw [hd] at h
        simp only [Bind.bind, Except.bind, Pure.pure, Except.pure, Except.ok.injEq] at h
        exact ⟨_, h.symm⟩
  | null => simp [isStrOrObj] at hx
  | bool b => simp [isStrOrObj] at hx
  | num q => simp [isStrOrObj] at hx
  | arr xs => simp [isStrOrObj] at hx

/-- Every member of a list appears in its enumeration. -/
theorem mem_enum_of_mem {α : Type} {l : List α} {x : α} (hx : x ∈ l) :
    ∃ i, (i, x) ∈ l.enum := by
  obtain ⟨i, hi, hgx⟩ := List.mem_iff_getElem.mp hx
  refine ⟨i, ?_⟩
  rw [← hgx]
  have hlti : i < l.enum.length := by simpa using hi
  have hge := List.getElem_enum l i hlti
  rw [← hge]
  exact List.getElem_mem _

/-- Successful normalization of a list holding a string or dict element is
non-empty. -/
theorem normalize_replies_ne_nil (rng : Nat → Int) (elems : List Json)
    (out : List Reply) (h : normalize_replies rng elems = .ok out)
    (hx : ∃ x ∈ elems, isStrOrObj x = true) : out ≠ [] := by
  obtain ⟨x, hxm, hso⟩ := hx
  unfold normalize_replies at h
  cases hm : elems.enum.mapM (fun p => normalize_one_reply rng p.1 p.2) with
  | error e => rw [hm] at h; simp [Bind.bind, Except.bind] at h
  | ok opts =>
    rw [hm] at h
    simp only [Bind.bind, Except.bind, Pure.pure, Except.pure, Except.ok.injEq] at h
    subst h
    obtain ⟨i, hie⟩ := mem_enum_of_mem hxm
    obtain ⟨o, hom, hgo⟩ := mapM_ok_mem _ hm hie
    obtain ⟨r, rfl⟩ := normalize_one_isSome rng i x o hgo hso
    have hrm : r ∈ opts.filterMap id := List.mem_filterMap.mpr ⟨some r, hom, rfl⟩
    exact List.ne_nil_of_mem hrm


/-- A value that iterates to a non-empty element list is truthy. -/
theorem pyTruthy_of_iter_ne_nil (rv : Json) (elems : List Json)
    (hi : pyIterJson rv = .ok elems) (hne : elems ≠ []) : pyTruthy rv = true := by
  cases rv with
  | arr xs =>
    simp only [pyIterJson, Except.ok.injEq] at hi
    subst hi
    simpa [pyTruthy] using hne
  | str s =>
    simp only [pyIterJson, Except.ok.injEq] at hi
    subst hi
    have hd : s.data ≠ [] := by
      intro hc
      exact hne (by rw [hc]; rfl)
    have hs : s ≠ "" := by
      intro hc
      rw [hc] at hd
      exact hd rfl
    simp [pyTruthy, hs]
  | obj kvs =>
    simp only [pyIterJson, Except.ok.injEq] at hi
    subst hi
    have hk : kvs ≠ [] := by
      intro hc
      exact hne (by rw [hc]; rfl)
    simp [pyTruthy, hk]
  | null => simp [pyIterJson] at hi
  | bool b => simp [pyIterJson] at hi
  | num q => simp [pyIterJson] at hi

/-- When neither the cleaned text nor its brace span decodes, the parser
returns exactly the single fallback reply. -/
theorem safe_parse_fallback (rng : Nat → Int) (raw : String)
    (h1 : json_loads (clean_markdown_code_block raw) = none)
    (h2 : ∀ span, re_search_braces (clean_markdown_code_block raw).data = some span →
      json_loads (String.mk span) = none) :
    safe_parse_agent_reply rng raw = [⟨.str raw, .num 0⟩] := by
  have hp : parse_nested_json raw = .ok (.obj [("replies", .arr [])]) := by
    unfold parse_nested_json
    dsimp only
    rw [h1]
    cases hr : re_search_braces (clean_markdown_code_block raw).data with
    | none => rfl
    | some span =>
      dsimp only
      rw [h2 span hr]
  unfold safe_parse_agent_reply
  rw [hp]
  rfl

/-- When the decoded object holds a replies value containing at least one
string or dict element, the parser returns at least one reply. -/
theorem safe_parse_nonempty (rng : Nat → Int) (raw : String)
    (kvs : List (String × Json)) (rv : Json) (elems : List Json)
    (hp : parse_nested_json raw = .ok (.obj kvs))
    (hr : objLookup kvs "replies" = some rv)
    (hi : pyIterJson rv = .ok elems)
    (hx : ∃ x ∈ elems, isStrOrObj x = true) :
    safe_parse_agent_reply rng raw ≠ [] := by
  have hne : elems ≠ [] := by
    obtain ⟨x, hxm, -⟩ := hx
    exact List.ne_nil_of_mem hxm
  have ht : pyTruthy rv = true := pyTruthy_of_iter_ne_nil rv elems hi hne
  have hd : dictGetD kvs "replies" (.arr []) = rv := by simp [dictGetD, hr]
  unfold safe_parse_agent_reply
  rw [hp]
  simp only [Bind.bind, Except.bind, hd, ht, if_true, hi]
  cases hnm : normalize_replies rng elems with
  | error e => simp
  | ok out =>
    simp only [Pure.pure, Except.pure]
    exact normalize_replies_ne_nil rng elems out hnm hx

/-- C4 amended: the batch reply parser returns exactly one fallback reply —
the entire raw text with delay 0 — for every input that is not decodable
JSON and has no decodable `{...}` span, and returns at least one reply
whenever the decoded replies value contains a string or object element; it
can return an empty list only when a decoded non-empty replies array
contains neither strings nor objects. -/
theorem C4_amended :
    (∀ (rng : Nat → Int) (raw : String),
        json_loads (clean_markdown_code_block raw) = none →
        (∀ span, re_search_braces (clean_markdown_code_block raw).data = some span →
          json_loads (String.mk span) = none) →
        safe_parse_agent_reply rng raw = [⟨.str raw, .num 0⟩]) ∧
    (∀ (rng : Nat → Int) (raw : String) (kvs : List (String × Json)) (rv : Json)
        (elems : List Json),
        parse_nested_json raw = .ok (.obj kvs) →
        objLookup kvs "replies" = some rv →
        pyIterJson rv = .ok elems →
        (∃ x ∈ elems, isStrOrObj x = true) →
        safe_parse_agent_reply rng raw ≠ []) :=
  ⟨safe_parse_fallback, safe_parse_nonempty⟩

/-- Witness for C4's amended statement: the undecodable input from the
specification's example, and a decodable input with one string reply. -/
theorem C4_amended_witness :
    safe_parse_agent_reply rng0 "not json at all" =
      [⟨.str "not json at all", .num 0⟩] ∧
    safe_parse_agent_reply rng0 c4_ok_input ≠ [] :=
  ⟨C4_amended.1 rng0 "not json at all" rfl (fun _ h => nomatch h),
   C4_amended.2 rng0 c4_ok_input
     [("replies", Json.arr [Json.obj [("content", Json.str "hi"),
        ("send_delay_seconds", Json.num 0)]])]
     (Json.arr [Json.obj [("content", Json.str "hi"),
        ("send_delay_seconds", Json.num 0)]])
     [Json.obj [("content", Json.str "hi"), ("send_delay_seconds", Json.num 0)]]
     rfl rfl rfl
     ⟨Json.obj [("content", Json.str "hi"), ("send_delay_seconds", Json.num 0)],
      List.mem_singleton.mpr rfl, rfl⟩⟩

/-- The summary-score loop counts matching keywords. -/
theorem score_fold_count (kws : List String) (text : String) :
    kws.foldl (fun acc k => if pySubstr (pyLower k) text then acc + 1 else acc) (0 : Int)
      = kws.countP (fun k => pySubstr (pyLower k) text) := by
  rw [foldl_add_if_count]
  ring

/-- The topics loop scores 2 per (topic, keyword) substring pair. -/
theorem score_fold_topics (kws : List String) (ts : List Json) :
    ts.foldl (fun acc topic =>
      kws.foldl (fun acc2 k =>
        if pySubstr (pyLower k) (pyLower (pyStr topic)) then acc2 + 2 else acc2) acc)
      (0 : Int)
      = 2 * ((ts.map (fun topic =>
          ((kws.countP (fun k => pySubstr (pyLower k) (pyLower (pyStr topic)))) : Int))).sum) := by
  rw [foldl_nested_sum]
  ring

/-- The keywords loop scores 3 per equal (indexed keyword, keyword) pair. -/
theorem score_fold_kwfield (kws : List String) (iks : List Json) :
    iks.foldl (fun acc ik =>
      kws.foldl (fun acc2 k =>
        if pyLower k == pyLower (pyStr ik) then acc2 + 3 else acc2) acc)
      (0 : Int)
      = 3 * ((iks.map (fun ik =>
          ((kws.countP (fun k => pyLower k == pyLower (pyStr ik))) : Int))).sum) := by
  rw [foldl_nested_sum]
  ring

/-- The scoring code computes exactly the closed per-pair formula. -/
theorem calc_eq_spec_match (index : KEntry) (keywords : List String) :
    calculate_match_score index keywords = spec_match_score index keywords := by
  unfold calculate_match_score spec_match_score
  cases hs : index.summarySummary <;>
    simp only [Bind.bind, Except.bind] <;>
    try rfl
  cases ht : index.topics <;> cases hk : index.keywords <;>
    simp only [score_fold_count, score_fold_topics, score_fold_kwfield,
      Bind.bind, Except.bind, Pure.pure, Except.pure]

/-- A reflexive pairwise relation holds across enumeration indices in order. -/
theorem pairwise_refl_of_enum {β : Type} {R : β → β → Prop} (hrefl : ∀ a, R a a)
    {l : List β} (hl : l.Pairwise R) {i j : Nat} {a b : β}
    (ha : (i, a) ∈ l.enum) (hb : (j, b) ∈ l.enum) (hij : i ≤ j) : R a b := by
  obtain ⟨hi, ha2⟩ := List.mem_enum ha
  obtain ⟨hj, hb2⟩ := List.mem_enum hb
  rw [ha2, hb2]
  rcases Nat.lt_or_ge i j with h | h
  · exact List.pairwise_iff_getElem.mp hl i j hi hj h
  · have hij2 : i = j := Nat.le_antisymm hij h
    subst hij2
    exact hrefl _

/-- Stable descending sort by an integer key: the output is ordered by the
key, and ties keep any order the input was already sorted by. -/
theorem mergeSort_key_stable_pairwise {β : Type} (key dk : β → Int) (l : List β)
    (hl : l.Pairwise (fun a b => dk b ≤ dk a)) :
    (l.mergeSort (fun a b => decide (key b ≤ key a))).Pairwise
      (fun a b => key b ≤ key a ∧ (key a = key b → dk b ≤ dk a)) := by
  have htrans : ∀ a b c : β,
      (fun a b : β => decide (key b ≤ key a)) a b = true →
      (fun a b : β => decide (key b ≤ key a)) b c = true →
      (fun a b : β => decide (key b ≤ key a)) a c = true := by
    intro a b c h1 h2
    simp only [decide_eq_true_eq] at h1 h2 ⊢
    omega
  have htotal : ∀ a b : β,
      ((fun a b : β => decide (key b ≤ key a)) a b ||
       (fun a b : β => decide (key b ≤ key a)) b a) = true := by
    intro a b
    simp only [Bool.or_eq_true, decide_eq_true_eq]
    omega
  rw [← List.mergeSort_enum]
  rw [List.pairwise_map]
  have hs := List.sorted_mergeSort (List.enumLE_trans htrans) (List.enumLE_total htotal) l.enum
  refine List.Pairwise.imp_of_mem ?_ hs
  rintro ⟨i, a⟩ ⟨j, b⟩ hia hjb hR
  rw [List.mem_mergeSort] at hia hjb
  simp only [List.enumLE] at hR
  by_cases h1 : key b ≤ key a
  · refine ⟨h1, ?_⟩
    intro heq
    have h2 : key a ≤ key b := le_of_eq heq
    simp only [decide_eq_true h1, decide_eq_true h2, if_true, decide_eq_true_eq] at hR
    exact pairwise_refl_of_enum (R := fun x y => dk y ≤ dk x)
      (fun x => le_refl _) hl hia hjb hR
  · simp only [decide_eq_false h1, Bool.false_eq_true, if_false] at hR

/-- `mapM` of a pointwise-successful function is a `map`. -/
theorem mapM_ok_of_forall {α β : Type} (g : α → Except String β) (f : α → β) :
    ∀ (l : List α), (∀ a ∈ l, g a = .ok (f a)) → l.mapM g = .ok (l.map f) := by
  intro l
  induction l with
  | nil => intro _; rfl
  | cons a as ih =>
    intro h
    rw [List.mapM_cons, h a (List.mem_cons_self _ _),
      ih (fun x hx => h x (List.mem_cons_of_mem _ hx))]
    rfl

/-- Keyword filtering keeps exactly the entries with positive score, sorted
by score descending with ties in date-descending order for date-sorted
input. -/
theorem filter_and_score_spec (rows : List KEntry) (kws : List String)
    (f : KEntry → Int) (out : List KEntry)
    (hf : ∀ e ∈ rows, calculate_match_score e kws = .ok (f e))
    (hdate : rows.Pairwise (fun a b => b.summaryDate ≤ a.summaryDate))
    (h : filter_and_score_by_keywords rows kws = .ok out) :
    out.Perm (rows.filter (fun e => decide (0 < f e))) ∧
    out.Pairwise (fun a b => f b ≤ f a ∧ (f a = f b → b.summaryDate ≤ a.summaryDate)) := by
  have hmap : rows.mapM (fun index => do
      let score ← calculate_match_score index kws
      pure (score, index)) = .ok (rows.map (fun e => (f e, e))) := by
    apply mapM_ok_of_forall
    intro a ha
    rw [hf a ha]
    rfl
  unfold filter_and_score_by_keywords at h
  rw [hmap] at h
  simp only [Bind.bind, Except.bind, Pure.pure, Except.pure, Except.ok.injEq] at h
  have hpos : (rows.map (fun e => (f e, e))).filter (fun p => decide (0 < p.1))
      = (rows.filter (fun e => decide (0 < f e))).map (fun e => (f e, e)) := by
    rw [List.filter_map]
    rfl
  subst h
  constructor
  · have hperm := (List.mergeSort_perm
      ((rows.map (fun e => (f e, e))).filter (fun p => decide (0 < p.1)))
      (fun a b => decide (b.1 ≤ a.1))).map (fun p : Int × KEntry => p.2)
    refine hperm.trans ?_
    rw [hpos, List.map_map]
    have hcomp : ((fun p : Int × KEntry => p.2) ∘ fun e => (f e, e)) = id := rfl
    rw [hcomp, List.map_id]
  · have hpw : ((rows.map (fun e => (f e, e))).filter
        (fun p => decide (0 < p.1))).Pairwise
        (fun p q : Int × KEntry => q.2.summaryDate ≤ p.2.summaryDate) := by
      apply List.Pairwise.filter
      rw [List.pairwise_map]
      exact hdate
    have hsorted := mergeSort_key_stable_pairwise (fun p : Int × KEntry => p.1)
      (fun p : Int × KEntry => p.2.summaryDate) _ hpw
    rw [List.pairwise_map]
    refine List.Pairwise.imp_of_mem ?_ hsorted
    intro p q hp hq hpq
    rw [List.mem_mergeSort, hpos] at hp hq
    obtain ⟨ep, -, rfl⟩ := List.mem_map.mp hp
    obtain ⟨eq2, -, rfl⟩ := List.mem_map.mp hq
    exact hpq

/-- Sorting a two-element list. -/
theorem mergeSort_pair {α : Type} (le : α → α → Bool) (a b : α) :
    [a, b].mergeSort le = if le a b then [a, b] else [b, a] := by
  rw [List.mergeSort]
  simp [List.splitInTwo, List.splitAt, List.splitAt.go, List.merge]

/-- Concrete evaluation of keyword filtering on the two sample entries. -/
theorem c6_fas_eval :
    filter_and_score_by_keywords [c6_entry_sum, c6_entry_kw] ["fever"]
      = .ok [c6_entry_kw, c6_entry_sum] := by
  have hscored : [c6_entry_sum, c6_entry_kw].mapM (fun index => do
      let score ← calculate_match_score index ["fever"]
      pure (score, index)) = .ok [((1 : Int), c6_entry_sum), ((3 : Int), c6_entry_kw)] := rfl
  unfold filter_and_score_by_keywords
  rw [hscored]
  simp only [Bind.bind, Except.bind, Pure.pure, Except.pure]
  have hfil : List.filter (fun p => decide (0 < p.1))
      [((1 : Int), c6_entry_sum), ((3 : Int), c6_entry_kw)]
      = [((1 : Int), c6_entry_sum), ((3 : Int), c6_entry_kw)] := rfl
  rw [hfil, mergeSort_pair]
  norm_num

/-- C6 amended: each candidate entry scores +1 per keyword occurring
case-insensitively in the summary text, +2 per (topic, keyword) pair with
the keyword a substring of the topic, and +3 per (indexed keyword, query
keyword) pair equal case-insensitively; entries scoring 0 are excluded, and
the survivors are ordered by score descending with ties kept in
date-descending order (stable). -/
theorem C6_amended :
    (∀ (index : KEntry) (keywords : List String),
        calculate_match_score index keywords = spec_match_score index keywords) ∧
    (∀ (rows : List KEntry) (kws : List String) (f : KEntry → Int) (out : List KEntry),
        (∀ e ∈ rows, calculate_match_score e kws = .ok (f e)) →
        rows.Pairwise (fun a b => b.summaryDate ≤ a.summaryDate) →
        filter_and_score_by_keywords rows kws = .ok out →
        out.Perm (rows.filter (fun e => decide (0 < f e))) ∧
        out.Pairwise (fun a b => f b ≤ f a ∧
          (f a = f b → b.summaryDate ≤ a.summaryDate))) :=
  ⟨calc_eq_spec_match, filter_and_score_spec⟩

/-- Witness for C6's amended statement on the specification's own example:
the entry matching in `keywords` (score 3) ranks before the entry matching
only in the summary text (score 1). -/
theorem C6_amended_witness :
    calculate_match_score c6_entry_kw ["fever"] = spec_match_score c6_entry_kw ["fever"] ∧
    ([c6_entry_kw, c6_entry_sum].Perm
      ([c6_entry_sum, c6_entry_kw].filter (fun e => decide (0 < c6_score e))) ∧
     [c6_entry_kw, c6_entry_sum].Pairwise (fun a b => c6_score b ≤ c6_score a ∧
        (c6_score a = c6_score b → b.summaryDate ≤ a.summaryDate))) := by
  constructor
  · exact C6_amended.1 c6_entry_kw ["fever"]
  · refine C6_amended.2 [c6_entry_sum, c6_entry_kw] ["fever"] c6_score
      [c6_entry_kw, c6_entry_sum] ?_ ?_ c6_fas_eval
    · intro e he
      rcases List.mem_cons.mp he with rfl | he2
      · rfl
      · rcases List.mem_singleton.mp he2 with rfl
        rfl
    · refine List.Pairwise.cons ?_ (List.pairwise_singleton _ _)
      intro b hb
      rcases List.mem_singleton.mp hb with rfl
      norm_num [c6_entry_sum, c6_entry_kw]
